import Mathlib

/-!
Shallow embedding of `src/roman.py` (a Roman numeral codec).

Numeral strings are modelled as `List Char`.  The `Roman.tokens`
`OrderedDict` is the list `tokens` below, in the source's insertion order;
value lookup (`Roman.tokens[tok]['value']`) is `tokValue`, the
`'subtractives'` entries are `subtractives`.  Python's `KeyError` on an
unknown character makes the decoder and validator return `none`.
The `while` loop of `int_to_roman` is embedded with an explicit fuel
argument (`encodeLoopFuel`); `encodeLoop` runs it with fuel equal to the
value being encoded, which is enough because every iteration subtracts a
token value of at least 1.
-/

/-- The `Roman.tokens` ordered dictionary: the 13 token keys, in insertion
order, with their integer values. -/
def tokens : List (List Char × Nat) :=
  [(['I'], 1), (['I','V'], 4), (['V'], 5), (['I','X'], 9), (['X'], 10),
   (['X','L'], 40), (['L'], 50), (['X','C'], 90), (['C'], 100),
   (['C','D'], 400), (['D'], 500), (['C','M'], 900), (['M'], 1000)]

/-- `Roman.tokens[tok]['value']`: the value of a token key, `none` for a
string that is not a key (Python's `KeyError`). -/
def tokValue (tok : List Char) : Option Nat :=
  (tokens.find? fun p => p.1 == tok).map fun p => p.2

/-- `Roman.tokens[char].get('subtractives', '')`: the two candidate
subtractive digraphs a character can open, `none` when the entry has no
`'subtractives'` key. -/
def subtractives : Char → Option (List Char × List Char)
  | 'I' => some (['I','V'], ['I','X'])
  | 'X' => some (['X','L'], ['X','C'])
  | 'C' => some (['C','D'], ['C','M'])
  | _ => none

/-- `Roman._get_token`: from the current character and the rest of the
numeral after it, the token (one or two characters), whether the next
character was consumed, and the maximum consecutive repetitions.
`none` models the `KeyError` raised by `Roman.tokens[char]` on a character
that is not a token key. -/
def get_token (subtr : Bool) (char : Char) (rest : List Char) :
    Option (List Char × Bool × Nat) :=
  match tokValue [char] with
  | none => none
  | some _ =>
    match subtractives char with
    | some (d1, d2) =>
      if subtr then
        match rest with
        | [] => some ([char], false, 2)
        | next :: _ =>
          if [char, next] = d1 ∨ [char, next] = d2 then
            some ([char, next], true, 2)
          else
            some ([char], false, 2)
      else
        some ([char], false, 3)
    | none => some ([char], false, 0)

/-- `Roman.roman_to_int`: sum of the token values produced by the
tokenizer walk, `none` when a character is not a token key
(the `KeyError` of `_get_token`). -/
def roman_to_int (subtr : Bool) : List Char → Option Nat
  | [] => some 0
  | char :: rest =>
    match get_token subtr char rest with
    | none => none
    | some (tok, skip, _) =>
      match tokValue tok with
      | none => none
      | some v =>
        if skip then
          match rest with
          | [] => some v
          | _ :: rest2 => (roman_to_int subtr rest2).map fun s => v + s
        else
          (roman_to_int subtr rest).map fun s => v + s

/-- The `token_index` dictionary of `_is_valid_roman`: the position of a
token key in the reversed key order, `none` for a non-key (in particular
for the initial empty `previous_token`, whose lookup raises `KeyError`). -/
def tokenIndex (tok : List Char) : Option Nat :=
  tokens.reverse.findIdx? fun p => p.1 == tok

/-- The ordering `modifier` of `_is_valid_roman`. -/
def validModifier (prev : List Char) : Nat :=
  if prev = ['X','L'] ∨ prev = ['C','D'] then 1
  else if prev = ['X','C'] ∨ prev = ['C','M'] then 3
  else 0

/-- The ordering check of `_is_valid_roman`: `True` when
`token_index[previous_token] + modifier > token_index[present_token]`;
a `KeyError` on either lookup is caught and the check passes. -/
def orderFail (prev tok : List Char) : Bool :=
  match tokenIndex prev, tokenIndex tok with
  | some pi, some ci => decide (pi + validModifier prev > ci)
  | _, _ => false

/-- The per-token rule checks of `_is_valid_roman`'s loop body: `none`
when the numeral is invalid at this token (a token after `IV`/`IX`, an
over-repetition of a non-`M` token, or an ordering failure), otherwise
the updated `repetitions` counter. -/
def vstep (prev : List Char) (reps : Nat) (tok : List Char) (maxRep : Nat) :
    Option Nat :=
  if prev = ['I','V'] ∨ prev = ['I','X'] then none
  else if tok = prev then
    if reps + 1 > maxRep ∧ tok ≠ ['M'] then none
    else some (reps + 1)
  else if orderFail prev tok then none
  else some 0

/-- The loop of `Roman._is_valid_roman`, carrying `previous_token` and
`repetitions` across the walk.  `none` models the `KeyError` on a
character outside the alphabet. -/
def is_valid_aux (subtr : Bool) : List Char → Nat → List Char → Option Bool
  | _, _, [] => some true
  | prev, reps, char :: rest =>
    match get_token subtr char rest with
    | none => none
    | some (tok, skip, maxRep) =>
      match vstep prev reps tok maxRep with
      | none => some false
      | some reps2 =>
        if skip then
          match rest with
          | [] => some true
          | _ :: rest2 => is_valid_aux subtr tok reps2 rest2
        else
          is_valid_aux subtr tok reps2 rest

/-- `Roman._is_valid_roman`: the validator walk started with an empty
`previous_token` and zero repetitions. -/
def is_valid_roman (subtr : Bool) (numeral : List Char) : Option Bool :=
  is_valid_aux subtr [] 0 numeral

/-- The inner `for rom_val in reversed(Roman.tokens.keys())` scan of
`int_to_roman`: the first token, from the largest value down, that is not
a skipped digraph and whose value fits in the remaining amount. -/
def pickToken (subtr : Bool) (n : Nat) : Option (List Char × Nat) :=
  tokens.reverse.find? fun p =>
    (!(p.1.length == 2 && !subtr)) && decide (p.2 ≤ n)

/-- The `while integer > 0` loop of `int_to_roman`, with explicit fuel:
each iteration appends the picked token and subtracts its value.  Fuel
equal to the remaining amount is always enough because every token value
is at least 1. -/
def encodeLoopFuel (subtr : Bool) : Nat → Nat → List Char
  | 0, _ => []
  | _ + 1, 0 => []
  | fuel + 1, n =>
    match pickToken subtr n with
    | none => []
    | some tv => tv.1 ++ encodeLoopFuel subtr fuel (n - tv.2)

/-- The encoding loop of `int_to_roman` on a non-negative amount. -/
def encodeLoop (subtr : Bool) (n : Nat) : List Char :=
  encodeLoopFuel subtr n n

/-- Python's `int()` truncation toward zero on a rational. -/
def truncRat (q : ℚ) : Int :=
  if 0 ≤ q.num then Int.ofNat (q.num.toNat / q.den)
  else - Int.ofNat (q.num.natAbs / q.den)

/-- `int_to_roman`: rejects non-integral input (`int(integer) != integer`),
rejects a negative integer unless `accept_negative`, in which case a `'-'`
sign is prepended to the encoding of the absolute value; otherwise runs
the greedy encoding loop. -/
def int_to_roman (integer : ℚ) (subtr : Bool) (accept_negative : Bool) :
    Except String (List Char) :=
  if (truncRat integer : ℚ) ≠ integer then
    .error "Invalid value for conversion"
  else if integer < 0 then
    if accept_negative then
      .ok ('-' :: encodeLoop subtr integer.num.natAbs)
    else
      .error "Negative integers not allowed."
  else
    .ok (encodeLoop subtr integer.num.toNat)

/-- `str.upper()` on a numeral. -/
def upper (s : List Char) : List Char := s.map Char.toUpper

/-- The state of a `Roman` instance: its attributes `_numeral`, `_value`,
`_subtractive_notation` (field `subtractive` here), `is_valid` and
`check`. -/
structure RomanNum where
  numeral : List Char
  value : Nat
  subtractive : Bool
  is_valid : Bool
  check : Bool

deriving instance DecidableEq for RomanNum

/-- `Roman.__init__`: upper-case the input, reject characters outside the
token keys, compute `is_valid` (raising when `check` is set and the
numeral is invalid) and decode the value. -/
def mkRoman (numeral : List Char) (check : Bool) (subtr : Bool) :
    Except String RomanNum :=
  let num := upper numeral
  if num.all fun c => (tokValue [c]).isSome then
    match is_valid_roman subtr num, roman_to_int subtr num with
    | some valid, some value =>
      if check && !valid then
        .error "not a valid roman numeral"
      else
        .ok ⟨num, value, subtr, valid, check⟩
    | _, _ => .error "is not a valid roman numeral."
  else
    .error "is not a valid roman numeral."

/-- The three ways the `numeral` property setter can end: a silent
success, the printed value-mismatch rejection, or an uncaught `KeyError`
from decoding a character outside the alphabet. -/
inductive SetOutcome where
  | ok
  | mismatch
  | err

deriving instance DecidableEq for SetOutcome

deriving instance DecidableEq for Except

/-- The `numeral` property setter on an already-built instance: the new
string is stored, then decoded; a decode failure propagates with the new
string already in place, a value mismatch prints and restores the old
string, otherwise the new string stays. -/
def setNumeral (r : RomanNum) (s : List Char) : RomanNum × SetOutcome :=
  let num := upper s
  match roman_to_int r.subtractive num with
  | none => ({ r with numeral := num }, .err)
  | some newValue =>
    if r.value ≠ newValue then (r, .mismatch)
    else ({ r with numeral := num }, .ok)

/-- The `subtractive_notation` property setter on an already-built
instance: store the flag, then re-encode the value and assign it through
the `numeral` setter. -/
def set_subtractive (r : RomanNum) (b : Bool) : RomanNum :=
  let r1 := { r with subtractive := b }
  match int_to_roman (r1.value : ℚ) b false with
  | .ok s => (setNumeral r1 s).1
  | .error _ => r1

/-! Characterization of the greedy pick of `int_to_roman` by value range. -/

theorem pick_true_M (n : Nat) (h1 : 1000 ≤ n) :
    pickToken true n = some (['M'], 1000) := by
  simp [pickToken, tokens, List.find?, h1]

theorem pick_true_CM (n : Nat) (h1 : 900 ≤ n) (h2 : n < 1000) :
    pickToken true n = some (['C','M'], 900) := by
  have e1 : ¬ (1000 ≤ n) := by omega
  simp [pickToken, tokens, List.find?, h1, e1]

theorem pick_true_D (n : Nat) (h1 : 500 ≤ n) (h2 : n < 900) :
    pickToken true n = some (['D'], 500) := by
  have e1 : ¬ (1000 ≤ n) := by omega
  have e2 : ¬ (900 ≤ n) := by omega
  simp [pickToken, tokens, List.find?, h1, e1, e2]

theorem pick_true_CD (n : Nat) (h1 : 400 ≤ n) (h2 : n < 500) :
    pickToken true n = some (['C','D'], 400) := by
  have e1 : ¬ (1000 ≤ n) := by omega
  have e2 : ¬ (900 ≤ n) := by omega
  have e3 : ¬ (500 ≤ n) := by omega
  simp [pickToken, tokens, List.find?, h1, e1, e2, e3]

theorem pick_true_C (n : Nat) (h1 : 100 ≤ n) (h2 : n < 400) :
    pickToken true n = some (['C'], 100) := by
  have e1 : ¬ (1000 ≤ n) := by omega
  have e2 : ¬ (900 ≤ n) := by omega
  have e3 : ¬ (500 ≤ n) := by omega
  have e4 : ¬ (400 ≤ n) := by omega
  simp [pickToken, tokens, List.find?, h1, e1, e2, e3, e4]

theorem pick_true_XC (n : Nat) (h1 : 90 ≤ n) (h2 : n < 100) :
    pickToken true n = some (['X','C'], 90) := by
  have e1 : ¬ (1000 ≤ n) := by omega
  have e2 : ¬ (900 ≤ n) := by omega
  have e3 : ¬ (500 ≤ n) := by omega
  have e4 : ¬ (400 ≤ n) := by omega
  have e5 : ¬ (100 ≤ n) := by omega
  simp [pickToken, tokens, List.find?, h1, e1, e2, e3, e4, e5]

theorem pick_true_L (n : Nat) (h1 : 50 ≤ n) (h2 : n < 90) :
    pickToken true n = some (['L'], 50) := by
  have e1 : ¬ (1000 ≤ n) := by omega
  have e2 : ¬ (900 ≤ n) := by omega
  have e3 : ¬ (500 ≤ n) := by omega
  have e4 : ¬ (400 ≤ n) := by omega
  have e5 : ¬ (100 ≤ n) := by omega
  have e6 : ¬ (90 ≤ n) := by omega
  simp [pickToken, tokens, List.find?, h1, e1, e2, e3, e4, e5, e6]

theorem pick_true_XL (n : Nat) (h1 : 40 ≤ n) (h2 : n < 50) :
    pickToken true n = some (['X','L'], 40) := by
  have e1 : ¬ (1000 ≤ n) := by omega
  have e2 : ¬ (900 ≤ n) := by omega
  have e3 : ¬ (500 ≤ n) := by omega
  have e4 : ¬ (400 ≤ n) := by omega
  have e5 : ¬ (100 ≤ n) := by omega
  have e6 : ¬ (90 ≤ n) := by omega
  have e7 : ¬ (50 ≤ n) := by omega
  simp [pickToken, tokens, List.find?, h1, e1, e2, e3, e4, e5, e6, e7]

theorem pick_true_X (n : Nat) (h1 : 10 ≤ n) (h2 : n < 40) :
    pickToken true n = some (['X'], 10) := by
  have e1 : ¬ (1000 ≤ n) := by omega
  have e2 : ¬ (900 ≤ n) := by omega
  have e3 : ¬ (500 ≤ n) := by omega
  have e4 : ¬ (400 ≤ n) := by omega
  have e5 : ¬ (100 ≤ n) := by omega
  have e6 : ¬ (90 ≤ n) := by omega
  have e7 : ¬ (50 ≤ n) := by omega
  have e8 : ¬ (40 ≤ n) := by omega
  simp [pickToken, tokens, List.find?, h1, e1, e2, e3, e4, e5, e6, e7, e8]

theorem pick_true_IX (n : Nat) (h1 : 9 ≤ n) (h2 : n < 10) :
    pickToken true n = some (['I','X'], 9) := by
  have e1 : ¬ (1000 ≤ n) := by omega
  have e2 : ¬ (900 ≤ n) := by omega
  have e3 : ¬ (500 ≤ n) := by omega
  have e4 : ¬ (400 ≤ n) := by omega
  have e5 : ¬ (100 ≤ n) := by omega
  have e6 : ¬ (90 ≤ n) := by omega
  have e7 : ¬ (50 ≤ n) := by omega
  have e8 : ¬ (40 ≤ n) := by omega
  have e9 : ¬ (10 ≤ n) := by omega
  simp [pickToken, tokens, List.find?, h1, e1, e2, e3, e4, e5, e6, e7, e8, e9]

theorem pick_true_V (n : Nat) (h1 : 5 ≤ n) (h2 : n < 9) :
    pickToken true n = some (['V'], 5) := by
  have e1 : ¬ (1000 ≤ n) := by omega
  have e2 : ¬ (900 ≤ n) := by omega
  have e3 : ¬ (500 ≤ n) := by omega
  have e4 : ¬ (400 ≤ n) := by omega
  have e5 : ¬ (100 ≤ n) := by omega
  have e6 : ¬ (90 ≤ n) := by omega
  have e7 : ¬ (50 ≤ n) := by omega
  have e8 : ¬ (40 ≤ n) := by omega
  have e9 : ¬ (10 ≤ n) := by omega
  have e10 : ¬ (9 ≤ n) := by omega
  simp [pickToken, tokens, List.find?, h1, e1, e2, e3, e4, e5, e6, e7, e8, e9, e10]

theorem pick_true_IV (n : Nat) (h1 : 4 ≤ n) (h2 : n < 5) :
    pickToken true n = some (['I','V'], 4) := by
  have e1 : ¬ (1000 ≤ n) := by omega
  have e2 : ¬ (900 ≤ n) := by omega
  have e3 : ¬ (500 ≤ n) := by omega
  have e4 : ¬ (400 ≤ n) := by omega
  have e5 : ¬ (100 ≤ n) := by omega
  have e6 : ¬ (90 ≤ n) := by omega
  have e7 : ¬ (50 ≤ n) := by omega
  have e8 : ¬ (40 ≤ n) := by omega
  have e9 : ¬ (10 ≤ n) := by omega
  have e10 : ¬ (9 ≤ n) := by omega
  have e11 : ¬ (5 ≤ n) := by omega
  simp [pickToken, tokens, List.find?, h1, e1, e2, e3, e4, e5, e6, e7, e8, e9, e10,
    e11]

theorem pick_true_I (n : Nat) (h1 : 1 ≤ n) (h2 : n < 4) :
    pickToken true n = some (['I'], 1) := by
  have e1 : ¬ (1000 ≤ n) := by omega
  have e2 : ¬ (900 ≤ n) := by omega
  have e3 : ¬ (500 ≤ n) := by omega
  have e4 : ¬ (400 ≤ n) := by omega
  have e5 : ¬ (100 ≤ n) := by omega
  have e6 : ¬ (90 ≤ n) := by omega
  have e7 : ¬ (50 ≤ n) := by omega
  have e8 : ¬ (40 ≤ n) := by omega
  have e9 : ¬ (10 ≤ n) := by omega
  have e10 : ¬ (9 ≤ n) := by omega
  have e11 : ¬ (5 ≤ n) := by omega
  have e12 : ¬ (4 ≤ n) := by omega
  simp [pickToken, tokens, List.find?, h1, e1, e2, e3, e4, e5, e6, e7, e8, e9, e10,
    e11, e12]

theorem pick_false_M (n : Nat) (h1 : 1000 ≤ n) :
    pickToken false n = some (['M'], 1000) := by
  simp [pickToken, tokens, List.find?, h1]

theorem pick_false_D (n : Nat) (h1 : 500 ≤ n) (h2 : n < 1000) :
    pickToken false n = some (['D'], 500) := by
  have e1 : ¬ (1000 ≤ n) := by omega
  simp [pickToken, tokens, List.find?, h1, e1]

theorem pick_false_C (n : Nat) (h1 : 100 ≤ n) (h2 : n < 500) :
    pickToken false n = some (['C'], 100) := by
  have e1 : ¬ (1000 ≤ n) := by omega
  have e2 : ¬ (500 ≤ n) := by omega
  simp [pickToken, tokens, List.find?, h1, e1, e2]

theorem pick_false_L (n : Nat) (h1 : 50 ≤ n) (h2 : n < 100) :
    pickToken false n = some (['L'], 50) := by
  have e1 : ¬ (1000 ≤ n) := by omega
  have e2 : ¬ (500 ≤ n) := by omega
  have e3 : ¬ (100 ≤ n) := by omega
  simp [pickToken, tokens, List.find?, h1, e1, e2, e3]

theorem pick_false_X (n : Nat) (h1 : 10 ≤ n) (h2 : n < 50) :
    pickToken false n = some (['X'], 10) := by
  have e1 : ¬ (1000 ≤ n) := by omega
  have e2 : ¬ (500 ≤ n) := by omega
  have e3 : ¬ (100 ≤ n) := by omega
  have e4 : ¬ (50 ≤ n) := by omega
  simp [pickToken, tokens, List.find?, h1, e1, e2, e3, e4]

theorem pick_false_V (n : Nat) (h1 : 5 ≤ n) (h2 : n < 10) :
    pickToken false n = some (['V'], 5) := by
  have e1 : ¬ (1000 ≤ n) := by omega
  have e2 : ¬ (500 ≤ n) := by omega
  have e3 : ¬ (100 ≤ n) := by omega
  have e4 : ¬ (50 ≤ n) := by omega
  have e5 : ¬ (10 ≤ n) := by omega
  simp [pickToken, tokens, List.find?, h1, e1, e2, e3, e4, e5]

theorem pick_false_I (n : Nat) (h1 : 1 ≤ n) (h2 : n < 5) :
    pickToken false n = some (['I'], 1) := by
  have e1 : ¬ (1000 ≤ n) := by omega
  have e2 : ¬ (500 ≤ n) := by omega
  have e3 : ¬ (100 ≤ n) := by omega
  have e4 : ¬ (50 ≤ n) := by omega
  have e5 : ¬ (10 ≤ n) := by omega
  have e6 : ¬ (5 ≤ n) := by omega
  simp [pickToken, tokens, List.find?, h1, e1, e2, e3, e4, e5, e6]

/-- One iteration of the encoding loop when a token is picked. -/
theorem encodeFuel_step (s : Bool) (fuel n : Nat) (tv : List Char × Nat)
    (hn : n ≠ 0) (h : pickToken s n = some tv) :
    encodeLoopFuel s (fuel + 1) n = tv.1 ++ encodeLoopFuel s fuel (n - tv.2) := by
  match n, hn with
  | m + 1, _ => simp [encodeLoopFuel, h]

/-! Decoder steps: how `roman_to_int` consumes one greedy token. -/

theorem rti_true_M (s : List Char) :
    roman_to_int true ('M' :: s) = (roman_to_int true s).map fun v => 1000 + v := by
  simp [roman_to_int, get_token, tokValue, tokens, subtractives]

theorem rti_true_D (s : List Char) :
    roman_to_int true ('D' :: s) = (roman_to_int true s).map fun v => 500 + v := by
  simp [roman_to_int, get_token, tokValue, tokens, subtractives]

theorem rti_true_L (s : List Char) :
    roman_to_int true ('L' :: s) = (roman_to_int true s).map fun v => 50 + v := by
  simp [roman_to_int, get_token, tokValue, tokens, subtractives]

theorem rti_true_V (s : List Char) :
    roman_to_int true ('V' :: s) = (roman_to_int true s).map fun v => 5 + v := by
  simp [roman_to_int, get_token, tokValue, tokens, subtractives]

theorem rti_true_CM (s : List Char) :
    roman_to_int true ('C' :: 'M' :: s) =
      (roman_to_int true s).map fun v => 900 + v := by
  simp [roman_to_int, get_token, tokValue, tokens, subtractives]

theorem rti_true_CD (s : List Char) :
    roman_to_int true ('C' :: 'D' :: s) =
      (roman_to_int true s).map fun v => 400 + v := by
  simp [roman_to_int, get_token, tokValue, tokens, subtractives]

theorem rti_true_XC (s : List Char) :
    roman_to_int true ('X' :: 'C' :: s) =
      (roman_to_int true s).map fun v => 90 + v := by
  simp [roman_to_int, get_token, tokValue, tokens, subtractives]

theorem rti_true_XL (s : List Char) :
    roman_to_int true ('X' :: 'L' :: s) =
      (roman_to_int true s).map fun v => 40 + v := by
  simp [roman_to_int, get_token, tokValue, tokens, subtractives]

theorem rti_true_IX (s : List Char) :
    roman_to_int true ('I' :: 'X' :: s) =
      (roman_to_int true s).map fun v => 9 + v := by
  simp [roman_to_int, get_token, tokValue, tokens, subtractives]

theorem rti_true_IV (s : List Char) :
    roman_to_int true ('I' :: 'V' :: s) =
      (roman_to_int true s).map fun v => 4 + v := by
  simp [roman_to_int, get_token, tokValue, tokens, subtractives]

theorem rti_true_C (s : List Char) (h1 : s.head? ≠ some 'D')
    (h2 : s.head? ≠ some 'M') :
    roman_to_int true ('C' :: s) = (roman_to_int true s).map fun v => 100 + v := by
  match s with
  | [] => simp [roman_to_int, get_token, tokValue, tokens, subtractives]
  | c :: t =>
    simp at h1 h2
    simp [roman_to_int, get_token, tokValue, tokens, subtractives, h1, h2]

theorem rti_true_X (s : List Char) (h1 : s.head? ≠ some 'L')
    (h2 : s.head? ≠ some 'C') :
    roman_to_int true ('X' :: s) = (roman_to_int true s).map fun v => 10 + v := by
  match s with
  | [] => simp [roman_to_int, get_token, tokValue, tokens, subtractives]
  | c :: t =>
    simp at h1 h2
    simp [roman_to_int, get_token, tokValue, tokens, subtractives, h1, h2]

theorem rti_true_I (s : List Char) (h1 : s.head? ≠ some 'V')
    (h2 : s.head? ≠ some 'X') :
    roman_to_int true ('I' :: s) = (roman_to_int true s).map fun v => 1 + v := by
  match s with
  | [] => simp [roman_to_int, get_token, tokValue, tokens, subtractives]
  | c :: t =>
    simp at h1 h2
    simp [roman_to_int, get_token, tokValue, tokens, subtractives, h1, h2]

theorem rti_false_cons (c : Char) (v : Nat) (s : List Char)
    (h : tokValue [c] = some v) :
    roman_to_int false (c :: s) = (roman_to_int false s).map fun x => v + x := by
  match hs : subtractives c with
  | some p => simp [roman_to_int, get_token, h, hs]
  | none => simp [roman_to_int, get_token, h, hs]

/-- The first character of an encoding comes from a table token whose
value fits in the encoded amount. -/
theorem encode_head_mem (s : Bool) (fuel m : Nat) (c : Char)
    (h : (encodeLoopFuel s fuel m).head? = some c) :
    ∃ tv, tv ∈ tokens.reverse ∧ tv.2 ≤ m ∧ tv.1.head? = some c := by
  match fuel, m with
  | 0, _ => simp [encodeLoopFuel] at h
  | _ + 1, 0 => simp [encodeLoopFuel] at h
  | fuel + 1, m + 1 =>
    rw [show encodeLoopFuel s (fuel + 1) (m + 1) =
        match pickToken s (m + 1) with
        | none => []
        | some tv => tv.1 ++ encodeLoopFuel s fuel (m + 1 - tv.2)
      from rfl] at h
    match hp : pickToken s (m + 1) with
    | none => rw [hp] at h; simp at h
    | some tv =>
      rw [hp] at h
      simp only [List.head?_append] at h
      have hmem := List.mem_of_find?_eq_some hp
      have hpred := List.find?_some hp
      simp at hpred
      refine ⟨tv, hmem, hpred.2, ?_⟩
      match htv : tv.1 with
      | [] =>
        have : ∀ p ∈ tokens.reverse, p.1 ≠ [] := by decide
        exact absurd htv (this tv hmem)
      | a :: t => rw [htv] at h; simp at h; simp [h]

theorem head_notDM (fuel m : Nat) (hm : m ≤ 299) :
    (encodeLoopFuel true fuel m).head? ≠ some 'D' ∧
      (encodeLoopFuel true fuel m).head? ≠ some 'M' := by
  constructor <;> intro h <;>
    obtain ⟨tv, hmem, hle, hhd⟩ := encode_head_mem true fuel m _ h <;>
    rw [List.mem_reverse] at hmem <;> simp [tokens] at hmem <;>
    rcases hmem with rfl|rfl|rfl|rfl|rfl|rfl|rfl|rfl|rfl|rfl|rfl|rfl|rfl <;>
    simp_all <;> omega

theorem head_notLC (fuel m : Nat) (hm : m ≤ 29) :
    (encodeLoopFuel true fuel m).head? ≠ some 'L' ∧
      (encodeLoopFuel true fuel m).head? ≠ some 'C' := by
  constructor <;> intro h <;>
    obtain ⟨tv, hmem, hle, hhd⟩ := encode_head_mem true fuel m _ h <;>
    rw [List.mem_reverse] at hmem <;> simp [tokens] at hmem <;>
    rcases hmem with rfl|rfl|rfl|rfl|rfl|rfl|rfl|rfl|rfl|rfl|rfl|rfl|rfl <;>
    simp_all <;> omega

theorem head_notVX (fuel m : Nat) (hm : m ≤ 2) :
    (encodeLoopFuel true fuel m).head? ≠ some 'V' ∧
      (encodeLoopFuel true fuel m).head? ≠ some 'X' := by
  constructor <;> intro h <;>
    obtain ⟨tv, hmem, hle, hhd⟩ := encode_head_mem true fuel m _ h <;>
    rw [List.mem_reverse] at hmem <;> simp [tokens] at hmem <;>
    rcases hmem with rfl|rfl|rfl|rfl|rfl|rfl|rfl|rfl|rfl|rfl|rfl|rfl|rfl <;>
    simp_all <;> omega

/-- Decoding inverts the greedy encoding loop (subtractive mode), for any
sufficient fuel. -/
theorem rt_fuel_true (fuel : Nat) :
    ∀ n, n ≤ fuel → roman_to_int true (encodeLoopFuel true fuel n) = some n := by
  induction fuel with
  | zero =>
    intro n hn
    have : n = 0 := by omega
    subst this
    rfl
  | succ fuel ih =>
    intro n hn
    by_cases h0 : n = 0
    · subst h0; rfl
    · by_cases hb1 : 1000 ≤ n
      · rw [encodeFuel_step true fuel n _ h0 (pick_true_M n hb1)]
        simp only [List.cons_append, List.nil_append]
        rw [rti_true_M, ih (n - 1000) (by omega)]
        simp
        omega
      · by_cases hb2 : 900 ≤ n
        · rw [encodeFuel_step true fuel n _ h0 (pick_true_CM n hb2 (by omega))]
          simp only [List.cons_append, List.nil_append]
          rw [rti_true_CM, ih (n - 900) (by omega)]
          simp
          omega
        · by_cases hb3 : 500 ≤ n
          · rw [encodeFuel_step true fuel n _ h0 (pick_true_D n hb3 (by omega))]
            simp only [List.cons_append, List.nil_append]
            rw [rti_true_D, ih (n - 500) (by omega)]
            simp
            omega
          · by_cases hb4 : 400 ≤ n
            · rw [encodeFuel_step true fuel n _ h0 (pick_true_CD n hb4 (by omega))]
              simp only [List.cons_append, List.nil_append]
              rw [rti_true_CD, ih (n - 400) (by omega)]
              simp
              omega
            · by_cases hb5 : 100 ≤ n
              · rw [encodeFuel_step true fuel n _ h0 (pick_true_C n hb5 (by omega))]
                simp only [List.cons_append, List.nil_append]
                rw [rti_true_C _ (head_notDM fuel (n - 100) (by omega)).1
                  (head_notDM fuel (n - 100) (by omega)).2, ih (n - 100) (by omega)]
                simp
                omega
              · by_cases hb6 : 90 ≤ n
                · rw [encodeFuel_step true fuel n _ h0 (pick_true_XC n hb6 (by omega))]
                  simp only [List.cons_append, List.nil_append]
                  rw [rti_true_XC, ih (n - 90) (by omega)]
                  simp
                  omega
                · by_cases hb7 : 50 ≤ n
                  · rw [encodeFuel_step true fuel n _ h0 (pick_true_L n hb7 (by omega))]
                    simp only [List.cons_append, List.nil_append]
                    rw [rti_true_L, ih (n - 50) (by omega)]
                    simp
                    omega
                  · by_cases hb8 : 40 ≤ n
                    · rw [encodeFuel_step true fuel n _ h0
                        (pick_true_XL n hb8 (by omega))]
                      simp only [List.cons_append, List.nil_append]
                      rw [rti_true_XL, ih (n - 40) (by omega)]
                      simp
                      omega
                    · by_cases hb9 : 10 ≤ n
                      · rw [encodeFuel_step true fuel n _ h0
                          (pick_true_X n hb9 (by omega))]
                        simp only [List.cons_append, List.nil_append]
                        rw [rti_true_X _ (head_notLC fuel (n - 10) (by omega)).1
                          (head_notLC fuel (n - 10) (by omega)).2,
                          ih (n - 10) (by omega)]
                        simp
                        omega
                      · by_cases hb10 : 9 ≤ n
                        · rw [encodeFuel_step true fuel n _ h0
                            (pick_true_IX n hb10 (by omega))]
                          simp only [List.cons_append, List.nil_append]
                          rw [rti_true_IX, ih (n - 9) (by omega)]
                          simp
                          omega
                        · by_cases hb11 : 5 ≤ n
                          · rw [encodeFuel_step true fuel n _ h0
                              (pick_true_V n hb11 (by omega))]
                            simp only [List.cons_append, List.nil_append]
                            rw [rti_true_V, ih (n - 5) (by omega)]
                            simp
                            omega
                          · by_cases hb12 : 4 ≤ n
                            · rw [encodeFuel_step true fuel n _ h0
                                (pick_true_IV n hb12 (by omega))]
                              simp only [List.cons_append, List.nil_append]
                              rw [rti_true_IV, ih (n - 4) (by omega)]
                              simp
                              omega
                            · rw [encodeFuel_step true fuel n _ h0
                                (pick_true_I n (by omega) (by omega))]
                              simp only [List.cons_append, List.nil_append]
                              rw [rti_true_I _ (head_notVX fuel (n - 1) (by omega)).1
                                (head_notVX fuel (n - 1) (by omega)).2,
                                ih (n - 1) (by omega)]
                              simp
                              omega

/-- Decoding inverts the greedy encoding loop (additive mode), for any
sufficient fuel. -/
theorem rt_fuel_false (fuel : Nat) :
    ∀ n, n ≤ fuel → roman_to_int false (encodeLoopFuel false fuel n) = some n := by
  induction fuel with
  | zero =>
    intro n hn
    have : n = 0 := by omega
    subst this
    rfl
  | succ fuel ih =>
    intro n hn
    by_cases h0 : n = 0
    · subst h0; rfl
    · by_cases hb1 : 1000 ≤ n
      · rw [encodeFuel_step false fuel n _ h0 (pick_false_M n hb1)]
        simp only [List.cons_append, List.nil_append]
        rw [rti_false_cons 'M' 1000 _ (by decide), ih (n - 1000) (by omega)]
        simp
        omega
      · by_cases hb2 : 500 ≤ n
        · rw [encodeFuel_step false fuel n _ h0 (pick_false_D n hb2 (by omega))]
          simp only [List.cons_append, List.nil_append]
          rw [rti_false_cons 'D' 500 _ (by decide), ih (n - 500) (by omega)]
          simp
          omega
        · by_cases hb3 : 100 ≤ n
          · rw [encodeFuel_step false fuel n _ h0 (pick_false_C n hb3 (by omega))]
            simp only [List.cons_append, List.nil_append]
            rw [rti_false_cons 'C' 100 _ (by decide), ih (n - 100) (by omega)]
            simp
            omega
          · by_cases hb4 : 50 ≤ n
            · rw [encodeFuel_step false fuel n _ h0 (pick_false_L n hb4 (by omega))]
              simp only [List.cons_append, List.nil_append]
              rw [rti_false_cons 'L' 50 _ (by decide), ih (n - 50) (by omega)]
              simp
              omega
            · by_cases hb5 : 10 ≤ n
              · rw [encodeFuel_step false fuel n _ h0 (pick_false_X n hb5 (by omega))]
                simp only [List.cons_append, List.nil_append]
                rw [rti_false_cons 'X' 10 _ (by decide), ih (n - 10) (by omega)]
                simp
                omega
              · by_cases hb6 : 5 ≤ n
                · rw [encodeFuel_step false fuel n _ h0
                    (pick_false_V n hb6 (by omega))]
                  simp only [List.cons_append, List.nil_append]
                  rw [rti_false_cons 'V' 5 _ (by decide), ih (n - 5) (by omega)]
                  simp
                  omega
                · rw [encodeFuel_step false fuel n _ h0
                    (pick_false_I n (by omega) (by omega))]
                  simp only [List.cons_append, List.nil_append]
                  rw [rti_false_cons 'I' 1 _ (by decide), ih (n - 1) (by omega)]
                  simp
                  omega

/-- Round trip: decoding the greedy encoding of any non-negative integer
gives the integer back, in either notation style. -/
theorem roundtrip (subtr : Bool) (n : Nat) :
    roman_to_int subtr (encodeLoop subtr n) = some n := by
  match subtr with
  | true => exact rt_fuel_true n n (Nat.le_refl n)
  | false => exact rt_fuel_false n n (Nat.le_refl n)

/-! Evaluation lemmas for the validator's token index table. -/

theorem tokenIndex_nil : tokenIndex [] = none := by decide

theorem tokenIndex_M : tokenIndex ['M'] = some 0 := by decide

theorem tokenIndex_CM : tokenIndex ['C','M'] = some 1 := by decide

theorem tokenIndex_D : tokenIndex ['D'] = some 2 := by decide

theorem tokenIndex_CD : tokenIndex ['C','D'] = some 3 := by decide

theorem tokenIndex_C : tokenIndex ['C'] = some 4 := by decide

theorem tokenIndex_XC : tokenIndex ['X','C'] = some 5 := by decide

theorem tokenIndex_L : tokenIndex ['L'] = some 6 := by decide

theorem tokenIndex_XL : tokenIndex ['X','L'] = some 7 := by decide

theorem tokenIndex_X : tokenIndex ['X'] = some 8 := by decide

theorem tokenIndex_IX : tokenIndex ['I','X'] = some 9 := by decide

theorem tokenIndex_V : tokenIndex ['V'] = some 10 := by decide

theorem tokenIndex_IV : tokenIndex ['I','V'] = some 11 := by decide

theorem tokenIndex_I : tokenIndex ['I'] = some 12 := by decide

/-! Tokenizer steps on a single subtractive-capable character whose
successor does not complete a digraph. -/

theorem gt_true_C (s : List Char) (h1 : s.head? ≠ some 'D')
    (h2 : s.head? ≠ some 'M') :
    get_token true 'C' s = some (['C'], false, 2) := by
  match s with
  | [] => rfl
  | c :: t =>
    simp at h1 h2
    simp [get_token, tokValue, tokens, subtractives, h1, h2]

theorem gt_true_X (s : List Char) (h1 : s.head? ≠ some 'L')
    (h2 : s.head? ≠ some 'C') :
    get_token true 'X' s = some (['X'], false, 2) := by
  match s with
  | [] => rfl
  | c :: t =>
    simp at h1 h2
    simp [get_token, tokValue, tokens, subtractives, h1, h2]

theorem gt_true_I (s : List Char) (h1 : s.head? ≠ some 'V')
    (h2 : s.head? ≠ some 'X') :
    get_token true 'I' s = some (['I'], false, 2) := by
  match s with
  | [] => rfl
  | c :: t =>
    simp at h1 h2
    simp [get_token, tokValue, tokens, subtractives, h1, h2]

/-- The validator states reachable while walking a greedy subtractive
encoding: the previous token together with a bound tying the repetition
count to the remaining amount `m` still to be encoded. -/
def okTrue (prev : List Char) (reps m : Nat) : Prop :=
  prev = []
  ∨ prev = ['M']
  ∨ (prev = ['C','M'] ∧ m ≤ 99)
  ∨ (prev = ['D'] ∧ m ≤ 399)
  ∨ (prev = ['C','D'] ∧ m ≤ 99)
  ∨ (prev = ['C'] ∧ m + 100 * reps ≤ 299)
  ∨ (prev = ['X','C'] ∧ m ≤ 9)
  ∨ (prev = ['L'] ∧ m ≤ 39)
  ∨ (prev = ['X','L'] ∧ m ≤ 9)
  ∨ (prev = ['X'] ∧ m + 10 * reps ≤ 29)
  ∨ (prev = ['I','X'] ∧ m = 0)
  ∨ (prev = ['V'] ∧ m ≤ 3)
  ∨ (prev = ['I','V'] ∧ m = 0)
  ∨ (prev = ['I'] ∧ m + reps ≤ 2)

/-! One-step reasoning for the validator walk. -/

theorem iva_nil (subtr : Bool) (prev : List Char) (reps : Nat) :
    is_valid_aux subtr prev reps [] = some true := rfl

theorem gt_true_M (s : List Char) :
    get_token true 'M' s = some (['M'], false, 0) := rfl

theorem gt_true_D (s : List Char) :
    get_token true 'D' s = some (['D'], false, 0) := rfl

theorem gt_true_L (s : List Char) :
    get_token true 'L' s = some (['L'], false, 0) := rfl

theorem gt_true_V (s : List Char) :
    get_token true 'V' s = some (['V'], false, 0) := rfl

theorem gt_true_CM (s : List Char) :
    get_token true 'C' ('M' :: s) = some (['C','M'], true, 2) := rfl

theorem gt_true_CD (s : List Char) :
    get_token true 'C' ('D' :: s) = some (['C','D'], true, 2) := rfl

theorem gt_true_XC (s : List Char) :
    get_token true 'X' ('C' :: s) = some (['X','C'], true, 2) := rfl

theorem gt_true_XL (s : List Char) :
    get_token true 'X' ('L' :: s) = some (['X','L'], true, 2) := rfl

theorem gt_true_IX (s : List Char) :
    get_token true 'I' ('X' :: s) = some (['I','X'], true, 2) := rfl

theorem gt_true_IV (s : List Char) :
    get_token true 'I' ('V' :: s) = some (['I','V'], true, 2) := rfl

theorem gt_false_M (s : List Char) :
    get_token false 'M' s = some (['M'], false, 0) := rfl

theorem gt_false_D (s : List Char) :
    get_token false 'D' s = some (['D'], false, 0) := rfl

theorem gt_false_L (s : List Char) :
    get_token false 'L' s = some (['L'], false, 0) := rfl

theorem gt_false_V (s : List Char) :
    get_token false 'V' s = some (['V'], false, 0) := rfl

theorem gt_false_C (s : List Char) :
    get_token false 'C' s = some (['C'], false, 3) := rfl

theorem gt_false_X (s : List Char) :
    get_token false 'X' s = some (['X'], false, 3) := rfl

theorem gt_false_I (s : List Char) :
    get_token false 'I' s = some (['I'], false, 3) := rfl

theorem iva_step_noskip (subtr : Bool) (prev : List Char) (reps : Nat) (char : Char)
    (rest tok : List Char) (maxRep reps2 : Nat)
    (hg : get_token subtr char rest = some (tok, false, maxRep))
    (hv : vstep prev reps tok maxRep = some reps2) :
    is_valid_aux subtr prev reps (char :: rest) =
      is_valid_aux subtr tok reps2 rest := by
  simp only [is_valid_aux, hg, hv]
  simp

theorem iva_step_skip (subtr : Bool) (prev : List Char) (reps : Nat) (char next : Char)
    (rest tok : List Char) (maxRep reps2 : Nat)
    (hg : get_token subtr char (next :: rest) = some (tok, true, maxRep))
    (hv : vstep prev reps tok maxRep = some reps2) :
    is_valid_aux subtr prev reps (char :: next :: rest) =
      is_valid_aux subtr tok reps2 rest := by
  simp only [is_valid_aux, hg, hv]
  simp

theorem vstep_fresh (prev tok : List Char) (reps maxRep : Nat)
    (h1 : ¬ (prev = ['I','V'] ∨ prev = ['I','X'])) (h2 : tok ≠ prev)
    (h3 : orderFail prev tok = false) :
    vstep prev reps tok maxRep = some 0 := by
  simp [vstep, h1, h2, h3]

theorem vstep_same (tok : List Char) (reps maxRep : Nat)
    (h1 : ¬ (tok = ['I','V'] ∨ tok = ['I','X']))
    (h2 : ¬ (reps + 1 > maxRep ∧ tok ≠ ['M'])) :
    vstep tok reps tok maxRep = some (reps + 1) := by
  simp [vstep, h1, h2]

set_option maxHeartbeats 3000000 in
/-- Walking the validator over a greedy subtractive encoding succeeds from
any state that the walk can reach. -/
theorem valid_fuel_true (fuel : Nat) :
    ∀ n prev reps, n ≤ fuel → okTrue prev reps n →
      is_valid_aux true prev reps (encodeLoopFuel true fuel n) = some true := by
  induction fuel with
  | zero =>
    intro n prev reps hn _
    have h' : n = 0 := by omega
    subst h'
    exact iva_nil true prev reps
  | succ fuel ih =>
    intro n prev reps hn hok
    by_cases h0 : n = 0
    · subst h0; exact iva_nil true prev reps
    · by_cases hb1 : 1000 ≤ n
      · rw [encodeFuel_step true fuel n _ h0 (pick_true_M n hb1)]
        simp only [List.cons_append, List.nil_append]
        rcases hok with rfl | rfl | ⟨rfl, hm⟩ | ⟨rfl, hm⟩ | ⟨rfl, hm⟩ | ⟨rfl, hm⟩ |
          ⟨rfl, hm⟩ | ⟨rfl, hm⟩ | ⟨rfl, hm⟩ | ⟨rfl, hm⟩ | ⟨rfl, hm⟩ | ⟨rfl, hm⟩ |
          ⟨rfl, hm⟩ | ⟨rfl, hm⟩ <;> try omega
        · rw [iva_step_noskip true [] reps 'M' _ ['M'] _ _
            (gt_true_M _) (vstep_fresh [] ['M'] reps 0 (by decide) (by decide) (by decide))]
          exact ih (n - 1000) _ _ (by omega) (by simp [okTrue] <;> omega)
        · rw [iva_step_noskip true ['M'] reps 'M' _ ['M'] _ _
            (gt_true_M _) (vstep_same ['M'] reps 0 (by decide) (by simp))]
          exact ih (n - 1000) _ _ (by omega) (by simp [okTrue] <;> omega)
      · by_cases hb2 : 900 ≤ n
        · rw [encodeFuel_step true fuel n _ h0 (pick_true_CM n hb2 (by omega))]
          simp only [List.cons_append, List.nil_append]
          rcases hok with rfl | rfl | ⟨rfl, hm⟩ | ⟨rfl, hm⟩ | ⟨rfl, hm⟩ | ⟨rfl, hm⟩ |
            ⟨rfl, hm⟩ | ⟨rfl, hm⟩ | ⟨rfl, hm⟩ | ⟨rfl, hm⟩ | ⟨rfl, hm⟩ | ⟨rfl, hm⟩ |
            ⟨rfl, hm⟩ | ⟨rfl, hm⟩ <;> try omega
          · rw [iva_step_skip true [] reps 'C' 'M' _ ['C','M'] _ _
              (gt_true_CM _) (vstep_fresh [] ['C','M'] reps 2 (by decide) (by decide) (by decide))]
            exact ih (n - 900) _ _ (by omega) (by simp [okTrue] <;> omega)
          · rw [iva_step_skip true ['M'] reps 'C' 'M' _ ['C','M'] _ _
              (gt_true_CM _) (vstep_fresh ['M'] ['C','M'] reps 2 (by decide) (by decide) (by decide))]
            exact ih (n - 900) _ _ (by omega) (by simp [okTrue] <;> omega)
        · by_cases hb3 : 500 ≤ n
          · rw [encodeFuel_step true fuel n _ h0 (pick_true_D n hb3 (by omega))]
            simp only [List.cons_append, List.nil_append]
            rcases hok with rfl | rfl | ⟨rfl, hm⟩ | ⟨rfl, hm⟩ | ⟨rfl, hm⟩ | ⟨rfl, hm⟩ |
              ⟨rfl, hm⟩ | ⟨rfl, hm⟩ | ⟨rfl, hm⟩ | ⟨rfl, hm⟩ | ⟨rfl, hm⟩ | ⟨rfl, hm⟩ |
              ⟨rfl, hm⟩ | ⟨rfl, hm⟩ <;> try omega
            · rw [iva_step_noskip true [] reps 'D' _ ['D'] _ _
                (gt_true_D _) (vstep_fresh [] ['D'] reps 0 (by decide) (by decide) (by decide))]
              exact ih (n - 500) _ _ (by omega) (by simp [okTrue] <;> omega)
            · rw [iva_step_noskip true ['M'] reps 'D' _ ['D'] _ _
                (gt_true_D _) (vstep_fresh ['M'] ['D'] reps 0 (by decide) (by decide) (by decide))]
              exact ih (n - 500) _ _ (by omega) (by simp [okTrue] <;> omega)
          · by_cases hb4 : 400 ≤ n
            · rw [encodeFuel_step true fuel n _ h0 (pick_true_CD n hb4 (by omega))]
              simp only [List.cons_append, List.nil_append]
              rcases hok with rfl | rfl | ⟨rfl, hm⟩ | ⟨rfl, hm⟩ | ⟨rfl, hm⟩ | ⟨rfl, hm⟩ |
                ⟨rfl, hm⟩ | ⟨rfl, hm⟩ | ⟨rfl, hm⟩ | ⟨rfl, hm⟩ | ⟨rfl, hm⟩ | ⟨rfl, hm⟩ |
                ⟨rfl, hm⟩ | ⟨rfl, hm⟩ <;> try omega
              · rw [iva_step_skip true [] reps 'C' 'D' _ ['C','D'] _ _
                  (gt_true_CD _) (vstep_fresh [] ['C','D'] reps 2 (by decide) (by decide) (by decide))]
                exact ih (n - 400) _ _ (by omega) (by simp [okTrue] <;> omega)
              · rw [iva_step_skip true ['M'] reps 'C' 'D' _ ['C','D'] _ _
                  (gt_true_CD _) (vstep_fresh ['M'] ['C','D'] reps 2 (by decide) (by decide) (by decide))]
                exact ih (n - 400) _ _ (by omega) (by simp [okTrue] <;> omega)
            · by_cases hb5 : 100 ≤ n
              · rw [encodeFuel_step true fuel n _ h0 (pick_true_C n hb5 (by omega))]
                simp only [List.cons_append, List.nil_append]
                obtain ⟨hh1, hh2⟩ := head_notDM fuel (n - 100) (by omega)
                rcases hok with rfl | rfl | ⟨rfl, hm⟩ | ⟨rfl, hm⟩ | ⟨rfl, hm⟩ | ⟨rfl, hm⟩ |
                  ⟨rfl, hm⟩ | ⟨rfl, hm⟩ | ⟨rfl, hm⟩ | ⟨rfl, hm⟩ | ⟨rfl, hm⟩ | ⟨rfl, hm⟩ |
                  ⟨rfl, hm⟩ | ⟨rfl, hm⟩ <;> try omega
                · rw [iva_step_noskip true [] reps 'C' _ ['C'] _ _
                    (gt_true_C _ hh1 hh2) (vstep_fresh [] ['C'] reps 2 (by decide) (by decide) (by decide))]
                  exact ih (n - 100) _ _ (by omega) (by simp [okTrue] <;> omega)
                · rw [iva_step_noskip true ['M'] reps 'C' _ ['C'] _ _
                    (gt_true_C _ hh1 hh2) (vstep_fresh ['M'] ['C'] reps 2 (by decide) (by decide) (by decide))]
                  exact ih (n - 100) _ _ (by omega) (by simp [okTrue] <;> omega)
                · rw [iva_step_noskip true ['D'] reps 'C' _ ['C'] _ _
                    (gt_true_C _ hh1 hh2) (vstep_fresh ['D'] ['C'] reps 2 (by decide) (by decide) (by decide))]
                  exact ih (n - 100) _ _ (by omega) (by simp [okTrue] <;> omega)
                · rw [iva_step_noskip true ['C'] reps 'C' _ ['C'] _ _
                    (gt_true_C _ hh1 hh2) (vstep_same ['C'] reps 2 (by decide) (by simp; omega))]
                  exact ih (n - 100) _ _ (by omega) (by simp [okTrue] <;> omega)
              · by_cases hb6 : 90 ≤ n
                · rw [encodeFuel_step true fuel n _ h0 (pick_true_XC n hb6 (by omega))]
                  simp only [List.cons_append, List.nil_append]
                  rcases hok with rfl | rfl | ⟨rfl, hm⟩ | ⟨rfl, hm⟩ | ⟨rfl, hm⟩ | ⟨rfl, hm⟩ |
                    ⟨rfl, hm⟩ | ⟨rfl, hm⟩ | ⟨rfl, hm⟩ | ⟨rfl, hm⟩ | ⟨rfl, hm⟩ | ⟨rfl, hm⟩ |
                    ⟨rfl, hm⟩ | ⟨rfl, hm⟩ <;> try omega
                  · rw [iva_step_skip true [] reps 'X' 'C' _ ['X','C'] _ _
                      (gt_true_XC _) (vstep_fresh [] ['X','C'] reps 2 (by decide) (by decide) (by decide))]
                    exact ih (n - 90) _ _ (by omega) (by simp [okTrue] <;> omega)
                  · rw [iva_step_skip true ['M'] reps 'X' 'C' _ ['X','C'] _ _
                      (gt_true_XC _) (vstep_fresh ['M'] ['X','C'] reps 2 (by decide) (by decide) (by decide))]
                    exact ih (n - 90) _ _ (by omega) (by simp [okTrue] <;> omega)
                  · rw [iva_step_skip true ['C','M'] reps 'X' 'C' _ ['X','C'] _ _
                      (gt_true_XC _) (vstep_fresh ['C','M'] ['X','C'] reps 2 (by decide) (by decide) (by decide))]
                    exact ih (n - 90) _ _ (by omega) (by simp [okTrue] <;> omega)
                  · rw [iva_step_skip true ['D'] reps 'X' 'C' _ ['X','C'] _ _
                      (gt_true_XC _) (vstep_fresh ['D'] ['X','C'] reps 2 (by decide) (by decide) (by decide))]
                    exact ih (n - 90) _ _ (by omega) (by simp [okTrue] <;> omega)
                  · rw [iva_step_skip true ['C','D'] reps 'X' 'C' _ ['X','C'] _ _
                      (gt_true_XC _) (vstep_fresh ['C','D'] ['X','C'] reps 2 (by decide) (by decide) (by decide))]
                    exact ih (n - 90) _ _ (by omega) (by simp [okTrue] <;> omega)
                  · rw [iva_step_skip true ['C'] reps 'X' 'C' _ ['X','C'] _ _
                      (gt_true_XC _) (vstep_fresh ['C'] ['X','C'] reps 2 (by decide) (by decide) (by decide))]
                    exact ih (n - 90) _ _ (by omega) (by simp [okTrue] <;> omega)
                · by_cases hb7 : 50 ≤ n
                  · rw [encodeFuel_step true fuel n _ h0 (pick_true_L n hb7 (by omega))]
                    simp only [List.cons_append, List.nil_append]
                    rcases hok with rfl | rfl | ⟨rfl, hm⟩ | ⟨rfl, hm⟩ | ⟨rfl, hm⟩ | ⟨rfl, hm⟩ |
                      ⟨rfl, hm⟩ | ⟨rfl, hm⟩ | ⟨rfl, hm⟩ | ⟨rfl, hm⟩ | ⟨rfl, hm⟩ | ⟨rfl, hm⟩ |
                      ⟨rfl, hm⟩ | ⟨rfl, hm⟩ <;> try omega
                    · rw [iva_step_noskip true [] reps 'L' _ ['L'] _ _
                        (gt_true_L _) (vstep_fresh [] ['L'] reps 0 (by decide) (by decide) (by decide))]
                      exact ih (n - 50) _ _ (by omega) (by simp [okTrue] <;> omega)
                    · rw [iva_step_noskip true ['M'] reps 'L' _ ['L'] _ _
                        (gt_true_L _) (vstep_fresh ['M'] ['L'] reps 0 (by decide) (by decide) (by decide))]
                      exact ih (n - 50) _ _ (by omega) (by simp [okTrue] <;> omega)
                    · rw [iva_step_noskip true ['C','M'] reps 'L' _ ['L'] _ _
                        (gt_true_L _) (vstep_fresh ['C','M'] ['L'] reps 0 (by decide) (by decide) (by decide))]
                      exact ih (n - 50) _ _ (by omega) (by simp [okTrue] <;> omega)
                    · rw [iva_step_noskip true ['D'] reps 'L' _ ['L'] _ _
                        (gt_true_L _) (vstep_fresh ['D'] ['L'] reps 0 (by decide) (by decide) (by decide))]
                      exact ih (n - 50) _ _ (by omega) (by simp [okTrue] <;> omega)
                    · rw [iva_step_noskip true ['C','D'] reps 'L' _ ['L'] _ _
                        (gt_true_L _) (vstep_fresh ['C','D'] ['L'] reps 0 (by decide) (by decide) (by decide))]
                      exact ih (n - 50) _ _ (by omega) (by simp [okTrue] <;> omega)
                    · rw [iva_step_noskip true ['C'] reps 'L' _ ['L'] _ _
                        (gt_true_L _) (vstep_fresh ['C'] ['L'] reps 0 (by decide) (by decide) (by decide))]
                      exact ih (n - 50) _ _ (by omega) (by simp [okTrue] <;> omega)
                  · by_cases hb8 : 40 ≤ n
                    · rw [encodeFuel_step true fuel n _ h0 (pick_true_XL n hb8 (by omega))]
                      simp only [List.cons_append, List.nil_append]
                      rcases hok with rfl | rfl | ⟨rfl, hm⟩ | ⟨rfl, hm⟩ | ⟨rfl, hm⟩ | ⟨rfl, hm⟩ |
                        ⟨rfl, hm⟩ | ⟨rfl, hm⟩ | ⟨rfl, hm⟩ | ⟨rfl, hm⟩ | ⟨rfl, hm⟩ | ⟨rfl, hm⟩ |
                        ⟨rfl, hm⟩ | ⟨rfl, hm⟩ <;> try omega
                      · rw [iva_step_skip true [] reps 'X' 'L' _ ['X','L'] _ _
                          (gt_true_XL _) (vstep_fresh [] ['X','L'] reps 2 (by decide) (by decide) (by decide))]
                        exact ih (n - 40) _ _ (by omega) (by simp [okTrue] <;> omega)
                      · rw [iva_step_skip true ['M'] reps 'X' 'L' _ ['X','L'] _ _
                          (gt_true_XL _) (vstep_fresh ['M'] ['X','L'] reps 2 (by decide) (by decide) (by decide))]
                        exact ih (n - 40) _ _ (by omega) (by simp [okTrue] <;> omega)
                      · rw [iva_step_skip true ['C','M'] reps 'X' 'L' _ ['X','L'] _ _
                          (gt_true_XL _) (vstep_fresh ['C','M'] ['X','L'] reps 2 (by decide) (by decide) (by decide))]
                        exact ih (n - 40) _ _ (by omega) (by simp [okTrue] <;> omega)
                      · rw [iva_step_skip true ['D'] reps 'X' 'L' _ ['X','L'] _ _
                          (gt_true_XL _) (vstep_fresh ['D'] ['X','L'] reps 2 (by decide) (by decide) (by decide))]
                        exact ih (n - 40) _ _ (by omega) (by simp [okTrue] <;> omega)
                      · rw [iva_step_skip true ['C','D'] reps 'X' 'L' _ ['X','L'] _ _
                          (gt_true_XL _) (vstep_fresh ['C','D'] ['X','L'] reps 2 (by decide) (by decide) (by decide))]
                        exact ih (n - 40) _ _ (by omega) (by simp [okTrue] <;> omega)
                      · rw [iva_step_skip true ['C'] reps 'X' 'L' _ ['X','L'] _ _
                          (gt_true_XL _) (vstep_fresh ['C'] ['X','L'] reps 2 (by decide) (by decide) (by decide))]
                        exact ih (n - 40) _ _ (by omega) (by simp [okTrue] <;> omega)
                    · by_cases hb9 : 10 ≤ n
                      · rw [encodeFuel_step true fuel n _ h0 (pick_true_X n hb9 (by omega))]
                        simp only [List.cons_append, List.nil_append]
                        obtain ⟨hh1, hh2⟩ := head_notLC fuel (n - 10) (by omega)
                        rcases hok with rfl | rfl | ⟨rfl, hm⟩ | ⟨rfl, hm⟩ | ⟨rfl, hm⟩ | ⟨rfl, hm⟩ |
                          ⟨rfl, hm⟩ | ⟨rfl, hm⟩ | ⟨rfl, hm⟩ | ⟨rfl, hm⟩ | ⟨rfl, hm⟩ | ⟨rfl, hm⟩ |
                          ⟨rfl, hm⟩ | ⟨rfl, hm⟩ <;> try omega
                        · rw [iva_step_noskip true [] reps 'X' _ ['X'] _ _
                            (gt_true_X _ hh1 hh2) (vstep_fresh [] ['X'] reps 2 (by decide) (by decide) (by decide))]
                          exact ih (n - 10) _ _ (by omega) (by simp [okTrue] <;> omega)
                        · rw [iva_step_noskip true ['M'] reps 'X' _ ['X'] _ _
                            (gt_true_X _ hh1 hh2) (vstep_fresh ['M'] ['X'] reps 2 (by decide) (by decide) (by decide))]
                          exact ih (n - 10) _ _ (by omega) (by simp [okTrue] <;> omega)
                        · rw [iva_step_noskip true ['C','M'] reps 'X' _ ['X'] _ _
                            (gt_true_X _ hh1 hh2) (vstep_fresh ['C','M'] ['X'] reps 2 (by decide) (by decide) (by decide))]
                          exact ih (n - 10) _ _ (by omega) (by simp [okTrue] <;> omega)
                        · rw [iva_step_noskip true ['D'] reps 'X' _ ['X'] _ _
                            (gt_true_X _ hh1 hh2) (vstep_fresh ['D'] ['X'] reps 2 (by decide) (by decide) (by decide))]
                          exact ih (n - 10) _ _ (by omega) (by simp [okTrue] <;> omega)
                        · rw [iva_step_noskip true ['C','D'] reps 'X' _ ['X'] _ _
                            (gt_true_X _ hh1 hh2) (vstep_fresh ['C','D'] ['X'] reps 2 (by decide) (by decide) (by decide))]
                          exact ih (n - 10) _ _ (by omega) (by simp [okTrue] <;> omega)
                        · rw [iva_step_noskip true ['C'] reps 'X' _ ['X'] _ _
                            (gt_true_X _ hh1 hh2) (vstep_fresh ['C'] ['X'] reps 2 (by decide) (by decide) (by decide))]
                          exact ih (n - 10) _ _ (by omega) (by simp [okTrue] <;> omega)
                        · rw [iva_step_noskip true ['L'] reps 'X' _ ['X'] _ _
                            (gt_true_X _ hh1 hh2) (vstep_fresh ['L'] ['X'] reps 2 (by decide) (by decide) (by decide))]
                          exact ih (n - 10) _ _ (by omega) (by simp [okTrue] <;> omega)
                        · rw [iva_step_noskip true ['X'] reps 'X' _ ['X'] _ _
                            (gt_true_X _ hh1 hh2) (vstep_same ['X'] reps 2 (by decide) (by simp; omega))]
                          exact ih (n - 10) _ _ (by omega) (by simp [okTrue] <;> omega)
                      · by_cases hb10 : 9 ≤ n
                        · rw [encodeFuel_step true fuel n _ h0 (pick_true_IX n hb10 (by omega))]
                          simp only [List.cons_append, List.nil_append]
                          rcases hok with rfl | rfl | ⟨rfl, hm⟩ | ⟨rfl, hm⟩ | ⟨rfl, hm⟩ | ⟨rfl, hm⟩ |
                            ⟨rfl, hm⟩ | ⟨rfl, hm⟩ | ⟨rfl, hm⟩ | ⟨rfl, hm⟩ | ⟨rfl, hm⟩ | ⟨rfl, hm⟩ |
                            ⟨rfl, hm⟩ | ⟨rfl, hm⟩ <;> try omega
                          · rw [iva_step_skip true [] reps 'I' 'X' _ ['I','X'] _ _
                              (gt_true_IX _) (vstep_fresh [] ['I','X'] reps 2 (by decide) (by decide) (by decide))]
                            exact ih (n - 9) _ _ (by omega) (by simp [okTrue] <;> omega)
                          · rw [iva_step_skip true ['M'] reps 'I' 'X' _ ['I','X'] _ _
                              (gt_true_IX _) (vstep_fresh ['M'] ['I','X'] reps 2 (by decide) (by decide) (by decide))]
                            exact ih (n - 9) _ _ (by omega) (by simp [okTrue] <;> omega)
                          · rw [iva_step_skip true ['C','M'] reps 'I' 'X' _ ['I','X'] _ _
                              (gt_true_IX _) (vstep_fresh ['C','M'] ['I','X'] reps 2 (by decide) (by decide) (by decide))]
                            exact ih (n - 9) _ _ (by omega) (by simp [okTrue] <;> omega)
                          · rw [iva_step_skip true ['D'] reps 'I' 'X' _ ['I','X'] _ _
                              (gt_true_IX _) (vstep_fresh ['D'] ['I','X'] reps 2 (by decide) (by decide) (by decide))]
                            exact ih (n - 9) _ _ (by omega) (by simp [okTrue] <;> omega)
                          · rw [iva_step_skip true ['C','D'] reps 'I' 'X' _ ['I','X'] _ _
                              (gt_true_IX _) (vstep_fresh ['C','D'] ['I','X'] reps 2 (by decide) (by decide) (by decide))]
                            exact ih (n - 9) _ _ (by omega) (by simp [okTrue] <;> omega)
                          · rw [iva_step_skip true ['C'] reps 'I' 'X' _ ['I','X'] _ _
                              (gt_true_IX _) (vstep_fresh ['C'] ['I','X'] reps 2 (by decide) (by decide) (by decide))]
                            exact ih (n - 9) _ _ (by omega) (by simp [okTrue] <;> omega)
                          · rw [iva_step_skip true ['X','C'] reps 'I' 'X' _ ['I','X'] _ _
                              (gt_true_IX _) (vstep_fresh ['X','C'] ['I','X'] reps 2 (by decide) (by decide) (by decide))]
                            exact ih (n - 9) _ _ (by omega) (by simp [okTrue] <;> omega)
                          · rw [iva_step_skip true ['L'] reps 'I' 'X' _ ['I','X'] _ _
                              (gt_true_IX _) (vstep_fresh ['L'] ['I','X'] reps 2 (by decide) (by decide) (by decide))]
                            exact ih (n - 9) _ _ (by omega) (by simp [okTrue] <;> omega)
                          · rw [iva_step_skip true ['X','L'] reps 'I' 'X' _ ['I','X'] _ _
                              (gt_true_IX _) (vstep_fresh ['X','L'] ['I','X'] reps 2 (by decide) (by decide) (by decide))]
                            exact ih (n - 9) _ _ (by omega) (by simp [okTrue] <;> omega)
                          · rw [iva_step_skip true ['X'] reps 'I' 'X' _ ['I','X'] _ _
                              (gt_true_IX _) (vstep_fresh ['X'] ['I','X'] reps 2 (by decide) (by decide) (by decide))]
                            exact ih (n - 9) _ _ (by omega) (by simp [okTrue] <;> omega)
                        · by_cases hb11 : 5 ≤ n
                          · rw [encodeFuel_step true fuel n _ h0 (pick_true_V n hb11 (by omega))]
                            simp only [List.cons_append, List.nil_append]
                            rcases hok with rfl | rfl | ⟨rfl, hm⟩ | ⟨rfl, hm⟩ | ⟨rfl, hm⟩ | ⟨rfl, hm⟩ |
                              ⟨rfl, hm⟩ | ⟨rfl, hm⟩ | ⟨rfl, hm⟩ | ⟨rfl, hm⟩ | ⟨rfl, hm⟩ | ⟨rfl, hm⟩ |
                              ⟨rfl, hm⟩ | ⟨rfl, hm⟩ <;> try omega
                            · rw [iva_step_noskip true [] reps 'V' _ ['V'] _ _
                                (gt_true_V _) (vstep_fresh [] ['V'] reps 0 (by decide) (by decide) (by decide))]
                              exact ih (n - 5) _ _ (by omega) (by simp [okTrue] <;> omega)
                            · rw [iva_step_noskip true ['M'] reps 'V' _ ['V'] _ _
                                (gt_true_V _) (vstep_fresh ['M'] ['V'] reps 0 (by decide) (by decide) (by decide))]
                              exact ih (n - 5) _ _ (by omega) (by simp [okTrue] <;> omega)
                            · rw [iva_step_noskip true ['C','M'] reps 'V' _ ['V'] _ _
                                (gt_true_V _) (vstep_fresh ['C','M'] ['V'] reps 0 (by decide) (by decide) (by decide))]
                              exact ih (n - 5) _ _ (by omega) (by simp [okTrue] <;> omega)
                            · rw [iva_step_noskip true ['D'] reps 'V' _ ['V'] _ _
                                (gt_true_V _) (vstep_fresh ['D'] ['V'] reps 0 (by decide) (by decide) (by decide))]
                              exact ih (n - 5) _ _ (by omega) (by simp [okTrue] <;> omega)
                            · rw [iva_step_noskip true ['C','D'] reps 'V' _ ['V'] _ _
                                (gt_true_V _) (vstep_fresh ['C','D'] ['V'] reps 0 (by decide) (by decide) (by decide))]
                              exact ih (n - 5) _ _ (by omega) (by simp [okTrue] <;> omega)
                            · rw [iva_step_noskip true ['C'] reps 'V' _ ['V'] _ _
                                (gt_true_V _) (vstep_fresh ['C'] ['V'] reps 0 (by decide) (by decide) (by decide))]
                              exact ih (n - 5) _ _ (by omega) (by simp [okTrue] <;> omega)
                            · rw [iva_step_noskip true ['X','C'] reps 'V' _ ['V'] _ _
                                (gt_true_V _) (vstep_fresh ['X','C'] ['V'] reps 0 (by decide) (by decide) (by decide))]
                              exact ih (n - 5) _ _ (by omega) (by simp [okTrue] <;> omega)
                            · rw [iva_step_noskip true ['L'] reps 'V' _ ['V'] _ _
                                (gt_true_V _) (vstep_fresh ['L'] ['V'] reps 0 (by decide) (by decide) (by decide))]
                              exact ih (n - 5) _ _ (by omega) (by simp [okTrue] <;> omega)
                            · rw [iva_step_noskip true ['X','L'] reps 'V' _ ['V'] _ _
                                (gt_true_V _) (vstep_fresh ['X','L'] ['V'] reps 0 (by decide) (by decide) (by decide))]
                              exact ih (n - 5) _ _ (by omega) (by simp [okTrue] <;> omega)
                            · rw [iva_step_noskip true ['X'] reps 'V' _ ['V'] _ _
                                (gt_true_V _) (vstep_fresh ['X'] ['V'] reps 0 (by decide) (by decide) (by decide))]
                              exact ih (n - 5) _ _ (by omega) (by simp [okTrue] <;> omega)
                          · by_cases hb12 : 4 ≤ n
                            · rw [encodeFuel_step true fuel n _ h0 (pick_true_IV n hb12 (by omega))]
                              simp only [List.cons_append, List.nil_append]
                              rcases hok with rfl | rfl | ⟨rfl, hm⟩ | ⟨rfl, hm⟩ | ⟨rfl, hm⟩ | ⟨rfl, hm⟩ |
                                ⟨rfl, hm⟩ | ⟨rfl, hm⟩ | ⟨rfl, hm⟩ | ⟨rfl, hm⟩ | ⟨rfl, hm⟩ | ⟨rfl, hm⟩ |
                                ⟨rfl, hm⟩ | ⟨rfl, hm⟩ <;> try omega
                              · rw [iva_step_skip true [] reps 'I' 'V' _ ['I','V'] _ _
                                  (gt_true_IV _) (vstep_fresh [] ['I','V'] reps 2 (by decide) (by decide) (by decide))]
                                exact ih (n - 4) _ _ (by omega) (by simp [okTrue] <;> omega)
                              · rw [iva_step_skip true ['M'] reps 'I' 'V' _ ['I','V'] _ _
                                  (gt_true_IV _) (vstep_fresh ['M'] ['I','V'] reps 2 (by decide) (by decide) (by decide))]
                                exact ih (n - 4) _ _ (by omega) (by simp [okTrue] <;> omega)
                              · rw [iva_step_skip true ['C','M'] reps 'I' 'V' _ ['I','V'] _ _
                                  (gt_true_IV _) (vstep_fresh ['C','M'] ['I','V'] reps 2 (by decide) (by decide) (by decide))]
                                exact ih (n - 4) _ _ (by omega) (by simp [okTrue] <;> omega)
                              · rw [iva_step_skip true ['D'] reps 'I' 'V' _ ['I','V'] _ _
                                  (gt_true_IV _) (vstep_fresh ['D'] ['I','V'] reps 2 (by decide) (by decide) (by decide))]
                                exact ih (n - 4) _ _ (by omega) (by simp [okTrue] <;> omega)
                              · rw [iva_step_skip true ['C','D'] reps 'I' 'V' _ ['I','V'] _ _
                                  (gt_true_IV _) (vstep_fresh ['C','D'] ['I','V'] reps 2 (by decide) (by decide) (by decide))]
                                exact ih (n - 4) _ _ (by omega) (by simp [okTrue] <;> omega)
                              · rw [iva_step_skip true ['C'] reps 'I' 'V' _ ['I','V'] _ _
                                  (gt_true_IV _) (vstep_fresh ['C'] ['I','V'] reps 2 (by decide) (by decide) (by decide))]
                                exact ih (n - 4) _ _ (by omega) (by simp [okTrue] <;> omega)
                              · rw [iva_step_skip true ['X','C'] reps 'I' 'V' _ ['I','V'] _ _
                                  (gt_true_IV _) (vstep_fresh ['X','C'] ['I','V'] reps 2 (by decide) (by decide) (by decide))]
                                exact ih (n - 4) _ _ (by omega) (by simp [okTrue] <;> omega)
                              · rw [iva_step_skip true ['L'] reps 'I' 'V' _ ['I','V'] _ _
                                  (gt_true_IV _) (vstep_fresh ['L'] ['I','V'] reps 2 (by decide) (by decide) (by decide))]
                                exact ih (n - 4) _ _ (by omega) (by simp [okTrue] <;> omega)
                              · rw [iva_step_skip true ['X','L'] reps 'I' 'V' _ ['I','V'] _ _
                                  (gt_true_IV _) (vstep_fresh ['X','L'] ['I','V'] reps 2 (by decide) (by decide) (by decide))]
                                exact ih (n - 4) _ _ (by omega) (by simp [okTrue] <;> omega)
                              · rw [iva_step_skip true ['X'] reps 'I' 'V' _ ['I','V'] _ _
                                  (gt_true_IV _) (vstep_fresh ['X'] ['I','V'] reps 2 (by decide) (by decide) (by decide))]
                                exact ih (n - 4) _ _ (by omega) (by simp [okTrue] <;> omega)
                            · rw [encodeFuel_step true fuel n _ h0 (pick_true_I n (by omega) (by omega))]
                              simp only [List.cons_append, List.nil_append]
                              obtain ⟨hh1, hh2⟩ := head_notVX fuel (n - 1) (by omega)
                              rcases hok with rfl | rfl | ⟨rfl, hm⟩ | ⟨rfl, hm⟩ | ⟨rfl, hm⟩ | ⟨rfl, hm⟩ |
                                ⟨rfl, hm⟩ | ⟨rfl, hm⟩ | ⟨rfl, hm⟩ | ⟨rfl, hm⟩ | ⟨rfl, hm⟩ | ⟨rfl, hm⟩ |
                                ⟨rfl, hm⟩ | ⟨rfl, hm⟩ <;> try omega
                              · rw [iva_step_noskip true [] reps 'I' _ ['I'] _ _
                                  (gt_true_I _ hh1 hh2) (vstep_fresh [] ['I'] reps 2 (by decide) (by decide) (by decide))]
                                exact ih (n - 1) _ _ (by omega) (by simp [okTrue] <;> omega)
                              · rw [iva_step_noskip true ['M'] reps 'I' _ ['I'] _ _
                                  (gt_true_I _ hh1 hh2) (vstep_fresh ['M'] ['I'] reps 2 (by decide) (by decide) (by decide))]
                                exact ih (n - 1) _ _ (by omega) (by simp [okTrue] <;> omega)
                              · rw [iva_step_noskip true ['C','M'] reps 'I' _ ['I'] _ _
                                  (gt_true_I _ hh1 hh2) (vstep_fresh ['C','M'] ['I'] reps 2 (by decide) (by decide) (by decide))]
                                exact ih (n - 1) _ _ (by omega) (by simp [okTrue] <;> omega)
                              · rw [iva_step_noskip true ['D'] reps 'I' _ ['I'] _ _
                                  (gt_true_I _ hh1 hh2) (vstep_fresh ['D'] ['I'] reps 2 (by decide) (by decide) (by decide))]
                                exact ih (n - 1) _ _ (by omega) (by simp [okTrue] <;> omega)
                              · rw [iva_step_noskip true ['C','D'] reps 'I' _ ['I'] _ _
                                  (gt_true_I _ hh1 hh2) (vstep_fresh ['C','D'] ['I'] reps 2 (by decide) (by decide) (by decide))]
                                exact ih (n - 1) _ _ (by omega) (by simp [okTrue] <;> omega)
                              · rw [iva_step_noskip true ['C'] reps 'I' _ ['I'] _ _
                                  (gt_true_I _ hh1 hh2) (vstep_fresh ['C'] ['I'] reps 2 (by decide) (by decide) (by decide))]
                                exact ih (n - 1) _ _ (by omega) (by simp [okTrue] <;> omega)
                              · rw [iva_step_noskip true ['X','C'] reps 'I' _ ['I'] _ _
                                  (gt_true_I _ hh1 hh2) (vstep_fresh ['X','C'] ['I'] reps 2 (by decide) (by decide) (by decide))]
                                exact ih (n - 1) _ _ (by omega) (by simp [okTrue] <;> omega)
                              · rw [iva_step_noskip true ['L'] reps 'I' _ ['I'] _ _
                                  (gt_true_I _ hh1 hh2) (vstep_fresh ['L'] ['I'] reps 2 (by decide) (by decide) (by decide))]
                                exact ih (n - 1) _ _ (by omega) (by simp [okTrue] <;> omega)
                              · rw [iva_step_noskip true ['X','L'] reps 'I' _ ['I'] _ _
                                  (gt_true_I _ hh1 hh2) (vstep_fresh ['X','L'] ['I'] reps 2 (by decide) (by decide) (by decide))]
                                exact ih (n - 1) _ _ (by omega) (by simp [okTrue] <;> omega)
                              · rw [iva_step_noskip true ['X'] reps 'I' _ ['I'] _ _
                                  (gt_true_I _ hh1 hh2) (vstep_fresh ['X'] ['I'] reps 2 (by decide) (by decide) (by decide))]
                                exact ih (n - 1) _ _ (by omega) (by simp [okTrue] <;> omega)
                              · rw [iva_step_noskip true ['V'] reps 'I' _ ['I'] _ _
                                  (gt_true_I _ hh1 hh2) (vstep_fresh ['V'] ['I'] reps 2 (by decide) (by decide) (by decide))]
                                exact ih (n - 1) _ _ (by omega) (by simp [okTrue] <;> omega)
                              · rw [iva_step_noskip true ['I'] reps 'I' _ ['I'] _ _
                                  (gt_true_I _ hh1 hh2) (vstep_same ['I'] reps 2 (by decide) (by simp; omega))]
                                exact ih (n - 1) _ _ (by omega) (by simp [okTrue] <;> omega)

/-- The validator states reachable while walking a greedy additive
encoding. -/
def okFalse (prev : List Char) (reps m : Nat) : Prop :=
  prev = []
  ∨ prev = ['M']
  ∨ (prev = ['D'] ∧ m ≤ 499)
  ∨ (prev = ['C'] ∧ m + 100 * reps ≤ 399)
  ∨ (prev = ['L'] ∧ m ≤ 49)
  ∨ (prev = ['X'] ∧ m + 10 * reps ≤ 39)
  ∨ (prev = ['V'] ∧ m ≤ 4)
  ∨ (prev = ['I'] ∧ m + reps ≤ 3)

set_option maxHeartbeats 2000000 in
/-- Walking the validator over a greedy additive encoding succeeds from
any state that the walk can reach. -/
theorem valid_fuel_false (fuel : Nat) :
    ∀ n prev reps, n ≤ fuel → okFalse prev reps n →
      is_valid_aux false prev reps (encodeLoopFuel false fuel n) = some true := by
  induction fuel with
  | zero =>
    intro n prev reps hn _
    have h' : n = 0 := by omega
    subst h'
    exact iva_nil false prev reps
  | succ fuel ih =>
    intro n prev reps hn hok
    by_cases h0 : n = 0
    · subst h0; exact iva_nil false prev reps
    · by_cases hb1 : 1000 ≤ n
      · rw [encodeFuel_step false fuel n _ h0 (pick_false_M n hb1)]
        simp only [List.cons_append, List.nil_append]
        rcases hok with rfl | rfl | ⟨rfl, hm⟩ | ⟨rfl, hm⟩ | ⟨rfl, hm⟩ | ⟨rfl, hm⟩ |
          ⟨rfl, hm⟩ | ⟨rfl, hm⟩ <;> try omega
        · rw [iva_step_noskip false [] reps 'M' _ ['M'] _ _
            (gt_false_M _) (vstep_fresh [] ['M'] reps 0 (by decide) (by decide) (by decide))]
          exact ih (n - 1000) _ _ (by omega) (by simp [okFalse] <;> omega)
        · rw [iva_step_noskip false ['M'] reps 'M' _ ['M'] _ _
            (gt_false_M _) (vstep_same ['M'] reps 0 (by decide) (by simp))]
          exact ih (n - 1000) _ _ (by omega) (by simp [okFalse] <;> omega)
      · by_cases hb2 : 500 ≤ n
        · rw [encodeFuel_step false fuel n _ h0 (pick_false_D n hb2 (by omega))]
          simp only [List.cons_append, List.nil_append]
          rcases hok with rfl | rfl | ⟨rfl, hm⟩ | ⟨rfl, hm⟩ | ⟨rfl, hm⟩ | ⟨rfl, hm⟩ |
            ⟨rfl, hm⟩ | ⟨rfl, hm⟩ <;> try omega
          · rw [iva_step_noskip false [] reps 'D' _ ['D'] _ _
              (gt_false_D _) (vstep_fresh [] ['D'] reps 0 (by decide) (by decide) (by decide))]
            exact ih (n - 500) _ _ (by omega) (by simp [okFalse] <;> omega)
          · rw [iva_step_noskip false ['M'] reps 'D' _ ['D'] _ _
              (gt_false_D _) (vstep_fresh ['M'] ['D'] reps 0 (by decide) (by decide) (by decide))]
            exact ih (n - 500) _ _ (by omega) (by simp [okFalse] <;> omega)
        · by_cases hb3 : 100 ≤ n
          · rw [encodeFuel_step false fuel n _ h0 (pick_false_C n hb3 (by omega))]
            simp only [List.cons_append, List.nil_append]
            rcases hok with rfl | rfl | ⟨rfl, hm⟩ | ⟨rfl, hm⟩ | ⟨rfl, hm⟩ | ⟨rfl, hm⟩ |
              ⟨rfl, hm⟩ | ⟨rfl, hm⟩ <;> try omega
            · rw [iva_step_noskip false [] reps 'C' _ ['C'] _ _
                (gt_false_C _) (vstep_fresh [] ['C'] reps 3 (by decide) (by decide) (by decide))]
              exact ih (n - 100) _ _ (by omega) (by simp [okFalse] <;> omega)
            · rw [iva_step_noskip false ['M'] reps 'C' _ ['C'] _ _
                (gt_false_C _) (vstep_fresh ['M'] ['C'] reps 3 (by decide) (by decide) (by decide))]
              exact ih (n - 100) _ _ (by omega) (by simp [okFalse] <;> omega)
            · rw [iva_step_noskip false ['D'] reps 'C' _ ['C'] _ _
                (gt_false_C _) (vstep_fresh ['D'] ['C'] reps 3 (by decide) (by decide) (by decide))]
              exact ih (n - 100) _ _ (by omega) (by simp [okFalse] <;> omega)
            · rw [iva_step_noskip false ['C'] reps 'C' _ ['C'] _ _
                (gt_false_C _) (vstep_same ['C'] reps 3 (by decide) (by simp; omega))]
              exact ih (n - 100) _ _ (by omega) (by simp [okFalse] <;> omega)
          · by_cases hb4 : 50 ≤ n
            · rw [encodeFuel_step false fuel n _ h0 (pick_false_L n hb4 (by omega))]
              simp only [List.cons_append, List.nil_append]
              rcases hok with rfl | rfl | ⟨rfl, hm⟩ | ⟨rfl, hm⟩ | ⟨rfl, hm⟩ | ⟨rfl, hm⟩ |
                ⟨rfl, hm⟩ | ⟨rfl, hm⟩ <;> try omega
              · rw [iva_step_noskip false [] reps 'L' _ ['L'] _ _
                  (gt_false_L _) (vstep_fresh [] ['L'] reps 0 (by decide) (by decide) (by decide))]
                exact ih (n - 50) _ _ (by omega) (by simp [okFalse] <;> omega)
              · rw [iva_step_noskip false ['M'] reps 'L' _ ['L'] _ _
                  (gt_false_L _) (vstep_fresh ['M'] ['L'] reps 0 (by decide) (by decide) (by decide))]
                exact ih (n - 50) _ _ (by omega) (by simp [okFalse] <;> omega)
              · rw [iva_step_noskip false ['D'] reps 'L' _ ['L'] _ _
                  (gt_false_L _) (vstep_fresh ['D'] ['L'] reps 0 (by decide) (by decide) (by decide))]
                exact ih (n - 50) _ _ (by omega) (by simp [okFalse] <;> omega)
              · rw [iva_step_noskip false ['C'] reps 'L' _ ['L'] _ _
                  (gt_false_L _) (vstep_fresh ['C'] ['L'] reps 0 (by decide) (by decide) (by decide))]
                exact ih (n - 50) _ _ (by omega) (by simp [okFalse] <;> omega)
            · by_cases hb5 : 10 ≤ n
              · rw [encodeFuel_step false fuel n _ h0 (pick_false_X n hb5 (by omega))]
                simp only [List.cons_append, List.nil_append]
                rcases hok with rfl | rfl | ⟨rfl, hm⟩ | ⟨rfl, hm⟩ | ⟨rfl, hm⟩ | ⟨rfl, hm⟩ |
                  ⟨rfl, hm⟩ | ⟨rfl, hm⟩ <;> try omega
                · rw [iva_step_noskip false [] reps 'X' _ ['X'] _ _
                    (gt_false_X _) (vstep_fresh [] ['X'] reps 3 (by decide) (by decide) (by decide))]
                  exact ih (n - 10) _ _ (by omega) (by simp [okFalse] <;> omega)
                · rw [iva_step_noskip false ['M'] reps 'X' _ ['X'] _ _
                    (gt_false_X _) (vstep_fresh ['M'] ['X'] reps 3 (by decide) (by decide) (by decide))]
                  exact ih (n - 10) _ _ (by omega) (by simp [okFalse] <;> omega)
                · rw [iva_step_noskip false ['D'] reps 'X' _ ['X'] _ _
                    (gt_false_X _) (vstep_fresh ['D'] ['X'] reps 3 (by decide) (by decide) (by decide))]
                  exact ih (n - 10) _ _ (by omega) (by simp [okFalse] <;> omega)
                · rw [iva_step_noskip false ['C'] reps 'X' _ ['X'] _ _
                    (gt_false_X _) (vstep_fresh ['C'] ['X'] reps 3 (by decide) (by decide) (by decide))]
                  exact ih (n - 10) _ _ (by omega) (by simp [okFalse] <;> omega)
                · rw [iva_step_noskip false ['L'] reps 'X' _ ['X'] _ _
                    (gt_false_X _) (vstep_fresh ['L'] ['X'] reps 3 (by decide) (by decide) (by decide))]
                  exact ih (n - 10) _ _ (by omega) (by simp [okFalse] <;> omega)
                · rw [iva_step_noskip false ['X'] reps 'X' _ ['X'] _ _
                    (gt_false_X _) (vstep_same ['X'] reps 3 (by decide) (by simp; omega))]
                  exact ih (n - 10) _ _ (by omega) (by simp [okFalse] <;> omega)
              · by_cases hb6 : 5 ≤ n
                · rw [encodeFuel_step false fuel n _ h0 (pick_false_V n hb6 (by omega))]
                  simp only [List.cons_append, List.nil_append]
                  rcases hok with rfl | rfl | ⟨rfl, hm⟩ | ⟨rfl, hm⟩ | ⟨rfl, hm⟩ | ⟨rfl, hm⟩ |
                    ⟨rfl, hm⟩ | ⟨rfl, hm⟩ <;> try omega
                  · rw [iva_step_noskip false [] reps 'V' _ ['V'] _ _
                      (gt_false_V _) (vstep_fresh [] ['V'] reps 0 (by decide) (by decide) (by decide))]
                    exact ih (n - 5) _ _ (by omega) (by simp [okFalse] <;> omega)
                  · rw [iva_step_noskip false ['M'] reps 'V' _ ['V'] _ _
                      (gt_false_V _) (vstep_fresh ['M'] ['V'] reps 0 (by decide) (by decide) (by decide))]
                    exact ih (n - 5) _ _ (by omega) (by simp [okFalse] <;> omega)
                  · rw [iva_step_noskip false ['D'] reps 'V' _ ['V'] _ _
                      (gt_false_V _) (vstep_fresh ['D'] ['V'] reps 0 (by decide) (by decide) (by decide))]
                    exact ih (n - 5) _ _ (by omega) (by simp [okFalse] <;> omega)
                  · rw [iva_step_noskip false ['C'] reps 'V' _ ['V'] _ _
                      (gt_false_V _) (vstep_fresh ['C'] ['V'] reps 0 (by decide) (by decide) (by decide))]
                    exact ih (n - 5) _ _ (by omega) (by simp [okFalse] <;> omega)
                  · rw [iva_step_noskip false ['L'] reps 'V' _ ['V'] _ _
                      (gt_false_V _) (vstep_fresh ['L'] ['V'] reps 0 (by decide) (by decide) (by decide))]
                    exact ih (n - 5) _ _ (by omega) (by simp [okFalse] <;> omega)
                  · rw [iva_step_noskip false ['X'] reps 'V' _ ['V'] _ _
                      (gt_false_V _) (vstep_fresh ['X'] ['V'] reps 0 (by decide) (by decide) (by decide))]
                    exact ih (n - 5) _ _ (by omega) (by simp [okFalse] <;> omega)
                · rw [encodeFuel_step false fuel n _ h0 (pick_false_I n (by omega) (by omega))]
                  simp only [List.cons_append, List.nil_append]
                  rcases hok with rfl | rfl | ⟨rfl, hm⟩ | ⟨rfl, hm⟩ | ⟨rfl, hm⟩ | ⟨rfl, hm⟩ |
                    ⟨rfl, hm⟩ | ⟨rfl, hm⟩ <;> try omega
                  · rw [iva_step_noskip false [] reps 'I' _ ['I'] _ _
                      (gt_false_I _) (vstep_fresh [] ['I'] reps 3 (by decide) (by decide) (by decide))]
                    exact ih (n - 1) _ _ (by omega) (by simp [okFalse] <;> omega)
                  · rw [iva_step_noskip false ['M'] reps 'I' _ ['I'] _ _
                      (gt_false_I _) (vstep_fresh ['M'] ['I'] reps 3 (by decide) (by decide) (by decide))]
                    exact ih (n - 1) _ _ (by omega) (by simp [okFalse] <;> omega)
                  · rw [iva_step_noskip false ['D'] reps 'I' _ ['I'] _ _
                      (gt_false_I _) (vstep_fresh ['D'] ['I'] reps 3 (by decide) (by decide) (by decide))]
                    exact ih (n - 1) _ _ (by omega) (by simp [okFalse] <;> omega)
                  · rw [iva_step_noskip false ['C'] reps 'I' _ ['I'] _ _
                      (gt_false_I _) (vstep_fresh ['C'] ['I'] reps 3 (by decide) (by decide) (by decide))]
                    exact ih (n - 1) _ _ (by omega) (by simp [okFalse] <;> omega)
                  · rw [iva_step_noskip false ['L'] reps 'I' _ ['I'] _ _
                      (gt_false_I _) (vstep_fresh ['L'] ['I'] reps 3 (by decide) (by decide) (by decide))]
                    exact ih (n - 1) _ _ (by omega) (by simp [okFalse] <;> omega)
                  · rw [iva_step_noskip false ['X'] reps 'I' _ ['I'] _ _
                      (gt_false_I _) (vstep_fresh ['X'] ['I'] reps 3 (by decide) (by decide) (by decide))]
                    exact ih (n - 1) _ _ (by omega) (by simp [okFalse] <;> omega)
                  · rw [iva_step_noskip false ['V'] reps 'I' _ ['I'] _ _
                      (gt_false_I _) (vstep_fresh ['V'] ['I'] reps 3 (by decide) (by decide) (by decide))]
                    exact ih (n - 1) _ _ (by omega) (by simp [okFalse] <;> omega)
                  · rw [iva_step_noskip false ['I'] reps 'I' _ ['I'] _ _
                      (gt_false_I _) (vstep_same ['I'] reps 3 (by decide) (by simp; omega))]
                    exact ih (n - 1) _ _ (by omega) (by simp [okFalse] <;> omega)

/-- The greedy encoding of any non-negative integer passes the validator,
in either notation style. -/
theorem encode_valid (subtr : Bool) (n : Nat) :
    is_valid_roman subtr (encodeLoop subtr n) = some true := by
  match subtr with
  | true =>
    exact valid_fuel_true n n [] 0 (Nat.le_refl n) (Or.inl rfl)
  | false =>
    exact valid_fuel_false n n [] 0 (Nat.le_refl n) (Or.inl rfl)


/-! Casting integers into the rational-typed encoder. -/

theorem truncRat_natCast (n : Nat) : truncRat (n : ℚ) = (n : Int) := by
  simp [truncRat, Rat.num_natCast, Rat.den_natCast]

theorem truncRat_intCast (z : Int) : truncRat (z : ℚ) = z := by
  rw [truncRat, Rat.num_intCast, Rat.den_intCast]
  rcases Int.le_or_lt 0 z with hz | hz
  · rw [if_pos hz]
    simp [Int.toNat_of_nonneg hz]
  · rw [if_neg (by omega)]
    simp only [Nat.div_one, Int.ofNat_eq_coe]
    omega

theorem int_to_roman_natCast (n : Nat) (s a : Bool) :
    int_to_roman (n : ℚ) s a = .ok (encodeLoop s n) := by
  have h1 : truncRat (n : ℚ) = (n : Int) := truncRat_natCast n
  have h2 : ¬ ((n : ℚ) < 0) := not_lt.mpr (Nat.cast_nonneg n)
  simp [int_to_roman, h1, h2, Rat.num_natCast]

theorem int_to_roman_negCast (z : Int) (hz : z < 0) (s : Bool) :
    int_to_roman (z : ℚ) s false = .error "Negative integers not allowed." ∧
      int_to_roman (z : ℚ) s true = .ok ('-' :: encodeLoop s z.natAbs) := by
  have h1 : truncRat (z : ℚ) = z := truncRat_intCast z
  have h2 : (z : ℚ) < 0 := by exact_mod_cast hz
  constructor <;> simp [int_to_roman, h1, h2, Rat.num_intCast]

/-! The encoder only emits alphabet characters, which are upper-case
fixed points. -/

theorem encode_chars (s : Bool) (fuel : Nat) :
    ∀ n, ∀ c ∈ encodeLoopFuel s fuel n, (tokValue [c]).isSome := by
  induction fuel with
  | zero => intro n c hc; simp [encodeLoopFuel] at hc
  | succ fuel ih =>
    intro n c hc
    match n with
    | 0 => simp [encodeLoopFuel] at hc
    | m + 1 =>
      rw [show encodeLoopFuel s (fuel + 1) (m + 1) =
          match pickToken s (m + 1) with
          | none => []
          | some tv => tv.1 ++ encodeLoopFuel s fuel (m + 1 - tv.2)
        from rfl] at hc
      match hp : pickToken s (m + 1) with
      | none => rw [hp] at hc; simp at hc
      | some tv =>
        rw [hp] at hc
        simp only [List.mem_append] at hc
        rcases hc with hc | hc
        · have hmem := List.mem_of_find?_eq_some hp
          have hall : ∀ p ∈ tokens.reverse, ∀ c ∈ p.1, (tokValue [c]).isSome := by
            decide
          exact hall tv hmem c hc
        · exact ih _ c hc

theorem alpha_toUpper (c : Char) (h : (tokValue [c]).isSome) : c.toUpper = c := by
  rw [tokValue] at h
  match hf : tokens.find? fun p => p.1 == [c] with
  | none => rw [hf] at h; simp at h
  | some p =>
    have hmem := List.mem_of_find?_eq_some hf
    have hbeq := List.find?_some hf
    simp [tokens] at hmem
    rcases hmem with rfl|rfl|rfl|rfl|rfl|rfl|rfl|rfl|rfl|rfl|rfl|rfl|rfl <;>
      simp at hbeq <;> subst hbeq <;> decide

theorem upper_of_alpha (l : List Char) (h : ∀ c ∈ l, (tokValue [c]).isSome) :
    upper l = l := by
  induction l with
  | nil => rfl
  | cons c t ih =>
    have h1 := alpha_toUpper c (h c (by simp))
    have h2 := ih fun d hd => h d (by simp [hd])
    simp only [upper, List.map_cons] at h2 ⊢
    rw [h1, h2]

theorem upper_encodeLoop (s : Bool) (n : Nat) :
    upper (encodeLoop s n) = encodeLoop s n :=
  upper_of_alpha _ (encode_chars s n n)

/-! Characterizations of the `Roman` class operations. -/

theorem setNumeral_mismatch (r : RomanNum) (s : List Char) (v : Nat)
    (hd : roman_to_int r.subtractive (upper s) = some v) (hv : v ≠ r.value) :
    setNumeral r s = (r, SetOutcome.mismatch) := by
  simp only [setNumeral, hd]
  rw [if_pos (Ne.symm hv)]

theorem setNumeral_ok (r : RomanNum) (s : List Char)
    (hd : roman_to_int r.subtractive (upper s) = some r.value) :
    setNumeral r s = ({ r with numeral := upper s }, SetOutcome.ok) := by
  simp only [setNumeral, hd]
  simp

theorem setNumeral_err (r : RomanNum) (s : List Char)
    (hd : roman_to_int r.subtractive (upper s) = none) :
    setNumeral r s = ({ r with numeral := upper s }, SetOutcome.err) := by
  simp only [setNumeral, hd]

theorem set_subtractive_eq (r : RomanNum) (b : Bool) :
    set_subtractive r b =
      { r with subtractive := b, numeral := encodeLoop b r.value } := by
  have hd : roman_to_int b (upper (encodeLoop b r.value)) = some r.value := by
    rw [upper_encodeLoop, roundtrip]
  simp only [set_subtractive, int_to_roman_natCast]
  rw [setNumeral_ok _ _ hd, upper_encodeLoop]

theorem mkRoman_ok (s : List Char) (c b : Bool) (r : RomanNum)
    (h : mkRoman s c b = Except.ok r) :
    r.numeral = upper s ∧ r.subtractive = b ∧ r.check = c ∧
      roman_to_int b (upper s) = some r.value ∧
      is_valid_roman b (upper s) = some r.is_valid := by
  simp only [mkRoman] at h
  split at h
  · split at h
    · split at h
      · simp at h
      · rw [Except.ok.injEq] at h
        subst h
        rename_i hvalid hvalue hcheck
        exact ⟨rfl, rfl, rfl, hvalue, hvalid⟩
    · simp at h
  · simp at h

theorem mkRoman_dash (l : List Char) (c b : Bool) :
    mkRoman ('-' :: l) c b = .error "is not a valid roman numeral." := by
  have hd : (tokValue ['-']).isSome = false := by decide
  simp [mkRoman, upper, hd]

/-- A run of `M` keeps the validator in the accepting state: the
repetition cap never fires because `M` is exempt. -/
theorem iva_M_replicate (s : Bool) :
    ∀ k reps, is_valid_aux s ['M'] reps (List.replicate k 'M') = some true := by
  intro k
  induction k with
  | zero => intro reps; rfl
  | succ k ih =>
    intro reps
    rw [List.replicate_succ]
    have hg : get_token s 'M' (List.replicate k 'M') = some (['M'], false, 0) := by
      cases s
      · exact gt_false_M _
      · exact gt_true_M _
    rw [iva_step_noskip s ['M'] reps 'M' _ ['M'] _ _ hg
      (vstep_same ['M'] reps 0 (by decide) (by simp))]
    exact ih (reps + 1)

theorem valid_M_replicate (s : Bool) (k : Nat) :
    is_valid_roman s (List.replicate k 'M') = some true := by
  match k with
  | 0 => rfl
  | k + 1 =>
    rw [is_valid_roman, List.replicate_succ]
    have hg : get_token s 'M' (List.replicate k 'M') = some (['M'], false, 0) := by
      cases s
      · exact gt_false_M _
      · exact gt_true_M _
    rw [iva_step_noskip s [] 0 'M' _ ['M'] _ _ hg
      (vstep_fresh [] ['M'] 0 0 (by decide) (by decide) (by decide))]
    exact iva_M_replicate s k 0

/-- Concatenation of `k` copies of a token's characters. -/
def repTok : Nat → List Char → List Char
  | 0, _ => []
  | k + 1, t => t ++ repTok k t

/-- The documented invariant of a `Roman` instance: its stored rendering
decodes (in its own notation style) to its stored value. -/
def rendering_consistent (r : RomanNum) : Prop :=
  roman_to_int r.subtractive r.numeral = some r.value

/-- C1: for every integer n in [0, 3999], encoding n with `int_to_roman`
and decoding the result with `roman_to_int` is the identity in both
styles, and the produced string is accepted by the validator in the
corresponding mode. -/
theorem claim1_roundtrip (n : Nat) (h : n ≤ 3999) :
    int_to_roman (n : ℚ) true false = Except.ok (encodeLoop true n) ∧
    roman_to_int true (encodeLoop true n) = some n ∧
    is_valid_roman true (encodeLoop true n) = some true ∧
    int_to_roman (n : ℚ) false false = Except.ok (encodeLoop false n) ∧
    roman_to_int false (encodeLoop false n) = some n ∧
    is_valid_roman false (encodeLoop false n) = some true :=
  ⟨int_to_roman_natCast n true false, roundtrip true n, encode_valid true n,
   int_to_roman_natCast n false false, roundtrip false n, encode_valid false n⟩

/-- C1 witness: the round trip at the concrete input 3999. -/
theorem claim1_roundtrip_witness :
    roman_to_int true (encodeLoop true 3999) = some 3999 :=
  (claim1_roundtrip 3999 (by decide)).2.1

/-- C2 counterexample: "VIV" is accepted by the validator with
subtractive style and decodes to 9, but toggling the style twice
re-renders the instance as "IX", not "VIV". -/
theorem claim2_counterexample :
    mkRoman ['V','I','V'] true true =
      Except.ok (RomanNum.mk ['V','I','V'] 9 true true true) ∧
    (set_subtractive (set_subtractive (RomanNum.mk ['V','I','V'] 9 true true true)
        false) true).numeral = ['I','X'] ∧
    (['I','X'] : List Char) ≠ ['V','I','V'] := by
  refine ⟨by decide, ?_, by decide⟩
  rw [set_subtractive_eq, set_subtractive_eq]
  decide

/-- C2 (amended): toggling the style never changes `value`, and toggling
twice restores the original rendering whenever that rendering is the
canonical greedy subtractive encoding of the value (as it is for any
instance built from `int_to_roman` output); a validator-accepted but
non-canonical rendering such as "VIV" is re-encoded instead. -/
theorem claim2_toggle (r : RomanNum) (hsub : r.subtractive = true)
    (hcanon : r.numeral = encodeLoop true r.value) :
    (set_subtractive (set_subtractive r false) true).numeral = r.numeral ∧
    (set_subtractive r false).value = r.value ∧
    (set_subtractive (set_subtractive r false) true).value = r.value ∧
    (∀ (r2 : RomanNum) (b : Bool), (set_subtractive r2 b).value = r2.value) := by
  refine ⟨?_, ?_, ?_, ?_⟩
  · rw [set_subtractive_eq, set_subtractive_eq, hcanon]
  · rw [set_subtractive_eq]
  · rw [set_subtractive_eq, set_subtractive_eq]
  · intro r2 b
    rw [set_subtractive_eq]

/-- C2 witness: the toggle round trip on the canonical instance for 9. -/
theorem claim2_toggle_witness :
    (set_subtractive (set_subtractive (RomanNum.mk ['I','X'] 9 true true true)
        false) true).numeral = (RomanNum.mk ['I','X'] 9 true true true).numeral ∧
    (set_subtractive (RomanNum.mk ['I','X'] 9 true true true) false).value =
      (RomanNum.mk ['I','X'] 9 true true true).value ∧
    (set_subtractive (set_subtractive (RomanNum.mk ['I','X'] 9 true true true)
        false) true).value = (RomanNum.mk ['I','X'] 9 true true true).value ∧
    (∀ (r2 : RomanNum) (b : Bool), (set_subtractive r2 b).value = r2.value) :=
  claim2_toggle (RomanNum.mk ['I','X'] 9 true true true) rfl (by decide)

/-- C3 counterexample: assigning the non-alphabet string "A" to the
numeral attribute raises (outcome `err`) after the new rendering is
already stored, leaving an instance whose rendering no longer decodes to
its value. -/
theorem claim3_counterexample :
    mkRoman ['X'] true true = Except.ok (RomanNum.mk ['X'] 10 true true true) ∧
    (setNumeral (RomanNum.mk ['X'] 10 true true true) ['A']).2 = SetOutcome.err ∧
    (setNumeral (RomanNum.mk ['X'] 10 true true true) ['A']).1.numeral = ['A'] ∧
    roman_to_int
        (setNumeral (RomanNum.mk ['X'] 10 true true true) ['A']).1.subtractive
        (setNumeral (RomanNum.mk ['X'] 10 true true true) ['A']).1.numeral ≠
      some (setNumeral (RomanNum.mk ['X'] 10 true true true) ['A']).1.value := by
  refine ⟨by decide, by decide, by decide, by decide⟩

/-- C3 (amended): the invariant `roman_to_int numeral = some value` holds
after construction, is preserved by every numeral assignment that does
not raise (every assignment of an alphabet-only string), and is preserved
by every style toggle; an assignment that raises (outcome `err`, possible
only for strings with characters outside the alphabet) leaves a rendering
that does not decode at all. -/
theorem claim3_invariant (s t : List Char) (c b nb : Bool) (r : RomanNum) :
    (mkRoman s c b = Except.ok r → rendering_consistent r) ∧
    (rendering_consistent r → (setNumeral r t).2 ≠ SetOutcome.err →
      rendering_consistent (setNumeral r t).1) ∧
    rendering_consistent (set_subtractive r nb) := by
  refine ⟨?_, ?_, ?_⟩
  · intro h
    obtain ⟨hnum, hsub, _, hval, _⟩ := mkRoman_ok s c b r h
    rw [rendering_consistent, hnum, hsub]
    exact hval
  · intro hinv hne
    match hd : roman_to_int r.subtractive (upper t) with
    | none =>
      rw [setNumeral_err r t hd] at hne
      simp at hne
    | some v =>
      by_cases hv : v = r.value
      · subst hv
        rw [setNumeral_ok r t hd]
        show roman_to_int r.subtractive (upper t) = some r.value
        exact hd
      · rw [setNumeral_mismatch r t v hd hv]
        exact hinv
  · rw [set_subtractive_eq]
    show roman_to_int nb (encodeLoop nb r.value) = some r.value
    exact roundtrip nb r.value

/-- C4: assigning a decodable string whose value differs from the
instance's value is a rejected no-op with the mismatch notification: the
instance keeps its previous rendering and value and nothing is raised. -/
theorem claim4_mismatch_noop (r : RomanNum) (s : List Char) (v : Nat)
    (hd : roman_to_int r.subtractive (upper s) = some v) (hv : v ≠ r.value) :
    setNumeral r s = (r, SetOutcome.mismatch) :=
  setNumeral_mismatch r s v hd hv

/-- C4 witness: assigning "V" to a Roman of value 10 is rejected. -/
theorem claim4_mismatch_noop_witness :
    roman_to_int (RomanNum.mk ['X'] 10 true true true).subtractive (upper ['V']) =
        some 5 ∧
    (5 : Nat) ≠ 10 ∧
    setNumeral (RomanNum.mk ['X'] 10 true true true) ['V'] =
      (RomanNum.mk ['X'] 10 true true true, SetOutcome.mismatch) :=
  ⟨by decide, by decide,
   claim4_mismatch_noop (RomanNum.mk ['X'] 10 true true true) ['V'] 5
     (by decide) (by decide)⟩

/-- C5: the subtractive validator rejects "IXI" and "XLL", while the
decoder still reads "XLL" as 90; constructing "XLL" with the check
disabled yields value 90 and records invalidity. -/
theorem claim5_ordering :
    is_valid_roman true ['I','X','I'] = some false ∧
    is_valid_roman true ['X','L','L'] = some false ∧
    roman_to_int true ['X','L','L'] = some 90 ∧
    mkRoman ['X','L','L'] false true =
      Except.ok (RomanNum.mk ['X','L','L'] 90 true false false) := by
  refine ⟨by decide, by decide, by decide, by decide⟩

/-- C6: "IIII" fails the subtractive validator but passes the additive
one; "III" passes both and decodes to 3 in both modes. -/
theorem claim6_repetition :
    is_valid_roman true ['I','I','I','I'] = some false ∧
    is_valid_roman false ['I','I','I','I'] = some true ∧
    is_valid_roman true ['I','I','I'] = some true ∧
    is_valid_roman false ['I','I','I'] = some true ∧
    roman_to_int true ['I','I','I'] = some 3 ∧
    roman_to_int false ['I','I','I'] = some 3 := by
  refine ⟨by decide, by decide, by decide, by decide, by decide, by decide⟩

/-- C7: "MMMM" is accepted in both modes and decodes to 4000; `M` may
repeat any number of times in either mode, and it is the only token whose
sufficient repetition (five copies) is not rejected. -/
theorem claim7_unlimited_M :
    is_valid_roman true ['M','M','M','M'] = some true ∧
    is_valid_roman false ['M','M','M','M'] = some true ∧
    roman_to_int true ['M','M','M','M'] = some 4000 ∧
    roman_to_int false ['M','M','M','M'] = some 4000 ∧
    (∀ (b : Bool) (k : Nat), is_valid_roman b (List.replicate k 'M') = some true) ∧
    (∀ p ∈ tokens, p.1 ≠ ['M'] →
      is_valid_roman true (repTok 5 p.1) = some false ∧
      is_valid_roman false (repTok 5 p.1) = some false) := by
  refine ⟨by decide, by decide, by decide, by decide, valid_M_replicate, by decide⟩

/-- C8: a negative integer is rejected by `int_to_roman` unless
`accept_negative` is set, in which case a sign marker is prepended to the
encoded magnitude; such a signed string is never accepted by the `Roman`
constructor; a non-integral input is always rejected. -/
theorem claim8_negative_nonintegral (z : Int) (s c b : Bool) (q : ℚ) :
    (z < 0 → int_to_roman (z : ℚ) s false =
        Except.error "Negative integers not allowed.") ∧
    (z < 0 → int_to_roman (z : ℚ) s true =
        Except.ok ('-' :: encodeLoop s z.natAbs)) ∧
    (mkRoman ('-' :: encodeLoop s z.natAbs) c b =
        Except.error "is not a valid roman numeral.") ∧
    ((truncRat q : ℚ) ≠ q →
      int_to_roman q s b = Except.error "Invalid value for conversion") := by
  refine ⟨?_, ?_, mkRoman_dash _ c b, ?_⟩
  · intro hz
    exact (int_to_roman_negCast z hz s).1
  · intro hz
    exact (int_to_roman_negCast z hz s).2
  · intro hq
    rw [int_to_roman, if_pos hq]

/-- C9: "VIV" is validator-accepted (subtractive) and decodes to 9, yet
the greedy encoder renders 9 as "IX" and never produces "VIV" for any
input, so the encoder's image is a strict subset of the accepted
language. -/
theorem claim9_VIV_gap :
    is_valid_roman true ['V','I','V'] = some true ∧
    roman_to_int true ['V','I','V'] = some 9 ∧
    int_to_roman ((9 : Nat) : ℚ) true false = Except.ok ['I','X'] ∧
    (['I','X'] : List Char) ≠ ['V','I','V'] ∧
    (∀ n : Nat, int_to_roman (n : ℚ) true false ≠ Except.ok ['V','I','V']) := by
  refine ⟨by decide, by decide, ?_, by decide, ?_⟩
  · rw [int_to_roman_natCast]
    decide
  · intro n h
    rw [int_to_roman_natCast, Except.ok.injEq] at h
    have h9 := roundtrip true n
    rw [h, (by decide : roman_to_int true ['V','I','V'] = some 9)] at h9
    have hn : (9 : Nat) = n := by injection h9
    subst hn
    exact absurd h (by decide)

/-- C10: a successful numeral assignment changes only the rendering —
value, style, validity flag and check flag persist unchanged, and the
validity flag is not recomputed, so it stays `true` after "IX" is
replaced by the subtractively invalid "VIIII". -/
theorem claim10_frame (r : RomanNum) (s : List Char) :
    (roman_to_int r.subtractive (upper s) = some r.value →
      setNumeral r s = ({ r with numeral := upper s }, SetOutcome.ok)) ∧
    (mkRoman ['I','X'] true true =
        Except.ok (RomanNum.mk ['I','X'] 9 true true true) ∧
      (setNumeral (RomanNum.mk ['I','X'] 9 true true true)
          ['V','I','I','I','I']).1 =
        RomanNum.mk ['V','I','I','I','I'] 9 true true true ∧
      is_valid_roman true ['V','I','I','I','I'] = some false) := by
  refine ⟨fun hd => setNumeral_ok r s hd, by decide, by decide, by decide⟩
